import Mathlib

/-!
Verification of the invoicerr back-office services against their
natural-language specification.  Each service method used by a claim is
shallowly embedded as an executable Lean function over an explicit
database-state record; JS numbers are modelled as rationals, timestamps
as integers (milliseconds), and Prisma queries as list operations.
-/

/-! ## InvitationsService (src/unnamed/part_001) -/

namespace Invitations

structure InvitationCode where
  code : String
  usedAt : Option Int
  expiresAt : Option Int
  deriving Repr, DecidableEq

structure Db where
  /-- number of rows returned by prisma.user.count() -/
  userCount : Nat
  invitationCodes : List InvitationCode
  /-- current time, the value of new Date() -/
  now : Int
  deriving Repr

structure RegisterCheck where
  allowed : Bool
  requiresCode : Bool
  message : Option String
  deriving Repr, DecidableEq

/-- JS falsiness of an optional string: undefined and the empty string are falsy. -/
def strFalsy : Option String → Bool
  | none => true
  | some s => s.isEmpty

/-- InvitationsService.canRegister, translated statement by statement. -/
def canRegister (db : Db) (invitationCode : Option String) : RegisterCheck :=
  if db.userCount = 0 then
    { allowed := true, requiresCode := false, message := none }
  else if strFalsy invitationCode then
    { allowed := false, requiresCode := true,
      message := some "An invitation code is required to register" }
  else
    match db.invitationCodes.find? (fun inv => some inv.code == invitationCode) with
    | none =>
        { allowed := false, requiresCode := true,
          message := some "Invalid invitation code" }
    | some invitation =>
        if invitation.usedAt.isSome then
          { allowed := false, requiresCode := true,
            message := some "This invitation code has already been used" }
        else if invitation.expiresAt.elim false (fun e => e < db.now) then
          { allowed := false, requiresCode := true,
            message := some "This invitation code has expired" }
        else
          { allowed := true, requiresCode := true, message := none }

end Invitations

/-! ## CronService (src/unnamed/part_003) -/

namespace Cron

structure LogEntry where
  level : String
  message : String
  category : String
  deriving Repr, DecidableEq

/-- CronService.runScheduledTasks: the body holds only a logger.info call
(the commented-out existing code does nothing); it touches no database
records, so it is a pure function of the ambient state that returns the
state unchanged together with the single log entry it emits. -/
def runScheduledTasks {σ : Type} (db : σ) : σ × List LogEntry :=
  (db, [{ level := "info", message := "Scheduled tasks executed", category := "cron" }])

end Cron

/-! ## WebhooksService (src/unnamed/part_003) -/

namespace Webhooks

/-- Prisma WebhookType enum values, kept abstract as strings. -/
abbrev WebhookType := String

structure WebhookDriver where
  name : String
  supports : WebhookType → Bool

/-- Modelled from the spec: the individual driver classes under drivers/
are not under src; the GenericDriver is the catch-all fallback driver, so its
supports predicate accepts every type.  Only its identity matters to getDriver. -/
def genericDriver : WebhookDriver :=
  { name := "GenericDriver", supports := fun _ => true }

structure Webhook where
  url : String
  wtype : WebhookType
  secret : Option String
  deriving Repr, DecidableEq

/-- WebhooksService.getDriver: first registered driver supporting the type,
with a fresh GenericDriver as fallback. -/
def getDriver (drivers : List WebhookDriver) (t : WebhookType) : WebhookDriver :=
  match drivers.find? (fun d => d.supports t) with
  | some d => d
  | none => genericDriver

structure SendCall where
  driverName : String
  url : String
  event : String
  secret : Option String
  deriving Repr, DecidableEq

/-- WebhooksService.send: one driver send per webhook in the input list. -/
def sendWebhooks (drivers : List WebhookDriver) (webhooks : List Webhook)
    (event : String) : List SendCall :=
  webhooks.map (fun w =>
    { driverName := (getDriver drivers w.wtype).name,
      url := w.url, event := event, secret := w.secret })

end Webhooks

/-! ## InvoicesService (src/backend/src/modules/invoices/invoices.service.ts)
    and ClientsService (src/backend/src/modules/clients/clients.service.ts) -/

namespace Invoices

/-- JS expression a || b for an optional string a: undefined and the empty
string fall through to b. -/
def jsOr (a : Option String) (b : String) : String :=
  match a with
  | some s => if s.isEmpty then b else s
  | none => b

/-- JS expression a || b where both sides are optional strings. -/
def jsOrOpt (a b : Option String) : Option String :=
  match a with
  | some s => if s.isEmpty then b else some s
  | none => b

/-- JS expression a || b for plain strings: the empty string is falsy. -/
def jsOrStr (a b : String) : String :=
  if a.isEmpty then b else a

structure Company where
  id : String
  currency : String
  exemptVat : Bool
  country : Option String
  deriving Repr, DecidableEq

structure Client where
  id : String
  name : String
  contactEmail : String
  currency : Option String
  isActive : Bool
  deriving Repr, DecidableEq

/-- An element of CreateInvoiceDto.items / EditInvoicesDto.items (the dto file
is not under src; the fields are read off their uses in the service). -/
structure ItemInput where
  /-- present only on edited items -/
  id : Option String
  description : String
  quantity : ℚ
  unitPrice : ℚ
  vatRate : Option ℚ
  itemType : String
  order : Option Nat
  deriving Repr, DecidableEq

structure InvoiceItem where
  id : String
  description : String
  quantity : ℚ
  unitPrice : ℚ
  vatRate : ℚ
  itemType : String
  order : Nat
  deriving Repr, DecidableEq

structure Invoice where
  id : String
  clientId : String
  companyId : String
  quoteId : Option String
  recurringInvoiceId : Option String
  paymentMethod : Option String
  paymentDetails : Option String
  paymentMethodId : Option String
  notes : Option String
  currency : String
  totalHT : ℚ
  totalVAT : ℚ
  totalTTC : ℚ
  items : List InvoiceItem
  dueDate : Int
  isActive : Bool
  deriving Repr, DecidableEq

structure CreateInvoiceDto where
  clientId : String
  quoteId : Option String
  recurringInvoiceId : Option String
  paymentMethod : Option String
  paymentDetails : Option String
  paymentMethodId : Option String
  notes : Option String
  currency : Option String
  dueDate : Option Int
  items : List ItemInput
  deriving Repr, DecidableEq

structure EditInvoicesDto where
  id : String
  clientId : String
  quoteId : Option String
  recurringInvoiceId : Option String
  paymentMethod : Option String
  paymentDetails : Option String
  paymentMethodId : Option String
  notes : Option String
  currency : Option String
  dueDate : Option Int
  items : List ItemInput
  deriving Repr, DecidableEq

/-- Database state touched by InvoicesService and ClientsService.  The
dispatched list records webhook events whose dispatch completed; webhookOk
models whether webhookDispatcher.dispatch succeeds or throws. -/
structure Db where
  companies : List Company
  clients : List Client
  invoices : List Invoice
  webhookOk : Bool
  dispatched : List (String × String)
  now : Int
  nextId : Nat
  deriving Repr, DecidableEq

/-- The try/catch around webhookDispatcher.dispatch: a throwing dispatch is
caught and logged, leaving the database unchanged. -/
def tryDispatch (db : Db) (event : String) (recordId : String) : Db :=
  if db.webhookOk then { db with dispatched := db.dispatched ++ [(event, recordId)] } else db

/-- JS expression item.vatRate || 0. -/
def vatOrZero (v : Option ℚ) : ℚ := v.getD 0

def totalHTOf (items : List ItemInput) : ℚ :=
  (items.map (fun item => item.quantity * item.unitPrice)).sum

def totalVATOf (items : List ItemInput) : ℚ :=
  (items.map (fun item => item.quantity * item.unitPrice * vatOrZero item.vatRate / 100)).sum

def totalTTCOf (items : List ItemInput) : ℚ :=
  (items.map (fun item => item.quantity * item.unitPrice * (1 + vatOrZero item.vatRate / 100))).sum

/-- The expression !!(company.exemptVat && (company.country || '').toUpperCase() === 'FRANCE'). -/
def isVatExemptFrance (company : Company) : Bool :=
  company.exemptVat && (company.country.getD "").toUpper == "FRANCE"

/-- Modelled from the spec: the Prisma schema (prisma/schema.prisma) is not
under src.  Invoices and clients are soft-deleted by setting isActive to
false, so a freshly created record defaults to isActive = true. -/
def isActiveDefault : Bool := true

def fourteenDaysMs : Int := 14 * 24 * 60 * 60 * 1000

/-- The item records written by the nested create in createInvoice/editInvoice. -/
def storedItem (exempt : Bool) (idStr : String) (i : ItemInput) : InvoiceItem :=
  { id := idStr, description := i.description, quantity := i.quantity,
    unitPrice := i.unitPrice,
    vatRate := if exempt then 0 else vatOrZero i.vatRate,
    itemType := i.itemType, order := i.order.getD 0 }

/-- InvoicesService.createInvoice.  Errors return the state unchanged; the
translation keeps the statement order of the source (both validations run
before any write, the webhook dispatch runs after the write). -/
def createInvoice (db : Db) (body : CreateInvoiceDto) : Except String Invoice × Db :=
  match db.companies.head? with
  | none => (.error "No company found. Please create a company first.", db)
  | some company =>
    match db.clients.find? (fun c => c.id == body.clientId) with
    | none => (.error "Client not found", db)
    | some client =>
      let totalHT := totalHTOf body.items
      let totalVAT0 := totalVATOf body.items
      let totalTTC0 := totalTTCOf body.items
      let exempt := isVatExemptFrance company
      let totalVAT := if exempt then 0 else totalVAT0
      let totalTTC := if exempt then totalHT else totalTTC0
      let invoiceId := "invoice-" ++ toString db.nextId
      let invoice : Invoice :=
        { id := invoiceId, clientId := body.clientId, companyId := company.id,
          quoteId := body.quoteId, recurringInvoiceId := body.recurringInvoiceId,
          paymentMethod := body.paymentMethod, paymentDetails := body.paymentDetails,
          paymentMethodId := body.paymentMethodId, notes := body.notes,
          currency := jsOr body.currency (jsOr client.currency company.currency),
          totalHT := totalHT, totalVAT := totalVAT, totalTTC := totalTTC,
          items := body.items.mapIdx
            (fun n i => storedItem exempt (invoiceId ++ "-item-" ++ toString n) i),
          dueDate := body.dueDate.getD (db.now + fourteenDaysMs),
          isActive := isActiveDefault }
      let db1 := { db with invoices := db.invoices ++ [invoice], nextId := db.nextId + 1 }
      let db2 := tryDispatch db1 "INVOICE_CREATED" invoice.id
      (.ok invoice, db2)

/-- InvoicesService.editInvoice. -/
def editInvoice (db : Db) (body : EditInvoicesDto) : Except String Invoice × Db :=
  if body.id.isEmpty then (.error "Invoice ID is required for editing", db)
  else
    match db.companies.head? with
    | none => (.error "No company found. Please create a company first.", db)
    | some company =>
      match db.clients.find? (fun c => c.id == body.clientId) with
      | none => (.error "Client not found", db)
      | some client =>
        match db.invoices.find? (fun inv => inv.id == body.id) with
        | none => (.error "Invoice not found", db)
        | some existingInvoice =>
          let incomingItemIds := (body.items.filter (fun i => i.id.isSome)).filterMap (fun i => i.id)
          let totalHT := totalHTOf body.items
          let totalVAT0 := totalVATOf body.items
          let totalTTC0 := totalTTCOf body.items
          let exempt := isVatExemptFrance company
          let totalVAT := if exempt then 0 else totalVAT0
          let totalTTC := if exempt then totalHT else totalTTC0
          -- items.deleteMany removes the existing items whose id is not incoming,
          -- updateMany rewrites each remaining one from its dto entry,
          -- create adds the id-less dto entries as fresh records
          let keptItems := existingInvoice.items.filter (fun it => incomingItemIds.contains it.id)
          let updatedItems := keptItems.map (fun it =>
            match body.items.find? (fun i => i.id == some it.id) with
            | some i => storedItem exempt it.id i
            | none => it)
          let createdItems := (body.items.filter (fun i => i.id.isNone)).mapIdx
            (fun n i => storedItem exempt (body.id ++ "-newitem-" ++ toString n) i)
          let updatedInvoice : Invoice :=
            { existingInvoice with
              recurringInvoiceId := body.recurringInvoiceId,
              paymentMethod := jsOrOpt body.paymentMethod existingInvoice.paymentMethod,
              paymentMethodId := jsOrOpt body.paymentMethodId existingInvoice.paymentMethodId,
              paymentDetails := jsOrOpt body.paymentDetails existingInvoice.paymentDetails,
              quoteId := jsOrOpt body.quoteId existingInvoice.quoteId,
              clientId := jsOrStr body.clientId existingInvoice.clientId,
              notes := body.notes,
              currency := jsOr body.currency (jsOr client.currency company.currency),
              dueDate := body.dueDate.getD (db.now + fourteenDaysMs),
              totalHT := totalHT, totalVAT := totalVAT, totalTTC := totalTTC,
              items := updatedItems ++ createdItems }
          let newInvoices := db.invoices.map
            (fun inv => if inv.id == body.id then updatedInvoice else inv)
          let db1 := { db with invoices := newInvoices }
          let db2 := tryDispatch db1 "INVOICE_UPDATED" updatedInvoice.id
          (.ok updatedInvoice, db2)

/-- InvoicesService.deleteInvoice: a soft delete flipping isActive only. -/
def deleteInvoice (db : Db) (iid : String) : Except String Invoice × Db :=
  match db.invoices.find? (fun inv => inv.id == iid) with
  | none => (.error "Invoice not found", db)
  | some existingInvoice =>
    let deletedInvoice := { existingInvoice with isActive := false }
    let newInvoices := db.invoices.map
      (fun inv => if inv.id == iid then { inv with isActive := false } else inv)
    let db1 := { db with invoices := newInvoices }
    let db2 := tryDispatch db1 "INVOICE_DELETED" existingInvoice.id
    (.ok deletedInvoice, db2)

/-- ClientsService.deleteClient: a soft delete flipping isActive only. -/
def deleteClient (db : Db) (cid : String) : Except String Client × Db :=
  match db.clients.find? (fun c => c.id == cid) with
  | none => (.error "Client not found", db)
  | some existingClient =>
    let deletedClient := { existingClient with isActive := false }
    let newClients := db.clients.map
      (fun c => if c.id == cid then { c with isActive := false } else c)
    let db1 := { db with clients := newClients }
    let db2 := tryDispatch db1 "CLIENT_DELETED" existingClient.id
    (.ok deletedClient, db2)

end Invoices

/-! ## ReceiptsService (src/unnamed/part_003) -/

namespace Receipts

/-- Invoice status values observed across the services (dashboard counts
UNPAID, SENT, PAID, OVERDUE). -/
inductive InvoiceStatus
  | UNPAID | SENT | PAID | OVERDUE
  deriving Repr, DecidableEq

structure RInvoice where
  id : String
  status : InvoiceStatus
  totalTTC : ℚ
  deriving Repr, DecidableEq

structure ReceiptItemInput where
  invoiceItemId : String
  amountPaid : ℚ
  deriving Repr, DecidableEq

structure ReceiptItem where
  id : String
  invoiceItemId : String
  amountPaid : ℚ
  deriving Repr, DecidableEq

structure Receipt where
  id : String
  invoiceId : String
  totalPaid : ℚ
  items : List ReceiptItem
  paymentMethodId : Option String
  paymentMethod : Option String
  paymentDetails : Option String
  deriving Repr, DecidableEq

structure CreateReceiptDto where
  invoiceId : String
  items : List ReceiptItemInput
  paymentMethodId : Option String
  paymentMethod : Option String
  paymentDetails : Option String
  deriving Repr, DecidableEq

structure EditReceiptDto where
  id : String
  items : List ReceiptItemInput
  paymentMethodId : Option String
  paymentMethod : Option String
  paymentDetails : Option String
  deriving Repr, DecidableEq

structure Db where
  invoices : List RInvoice
  receipts : List Receipt
  nextId : Nat
  deriving Repr, DecidableEq

def setInvoiceStatus (db : Db) (invoiceId : String) (s : InvoiceStatus) : Db :=
  let newInvoices := db.invoices.map
    (fun inv => if inv.id == invoiceId then { inv with status := s } else inv)
  { db with invoices := newInvoices }

/-- ReceiptsService.checkInvoiceAfterReceipt: only an UNPAID invoice is
re-examined; it becomes PAID when the receipts of the invoice cover totalTTC
and is (re)written as UNPAID otherwise. -/
def checkInvoiceAfterReceipt (db : Db) (invoiceId : String) : Except String Db :=
  match db.invoices.find? (fun inv => inv.id == invoiceId) with
  | none => .error "Invoice not found"
  | some invoice =>
    if invoice.status = .UNPAID then
      let receipts := db.receipts.filter (fun r => r.invoiceId == invoiceId)
      let totalPaid := (receipts.map (fun r => r.totalPaid)).sum
      if invoice.totalTTC ≤ totalPaid then
        .ok (setInvoiceStatus db invoiceId .PAID)
      else
        .ok (setInvoiceStatus db invoiceId .UNPAID)
    else
      .ok db

/-- ReceiptsService.createReceipt (the webhook dispatch and logging after
the state updates have no effect on the database). -/
def createReceipt (db : Db) (body : CreateReceiptDto) : Except String (Receipt × Db) :=
  match db.invoices.find? (fun inv => inv.id == body.invoiceId) with
  | none => .error "Invoice not found"
  | some invoice =>
    let receiptId := "receipt-" ++ toString db.nextId
    let receipt : Receipt :=
      { id := receiptId, invoiceId := body.invoiceId,
        totalPaid := (body.items.map (fun item => item.amountPaid)).sum,
        items := body.items.mapIdx (fun n item =>
          { id := receiptId ++ "-item-" ++ toString n,
            invoiceItemId := item.invoiceItemId, amountPaid := item.amountPaid }),
        paymentMethodId := body.paymentMethodId,
        paymentMethod := body.paymentMethod,
        paymentDetails := body.paymentDetails }
    let db1 := { db with receipts := db.receipts ++ [receipt], nextId := db.nextId + 1 }
    match checkInvoiceAfterReceipt db1 invoice.id with
    | .error e => .error e
    | .ok db2 => .ok (receipt, db2)

/-- ReceiptsService.editReceipt: all receipt items are replaced and the
receipt total rewritten, then the invoice is re-examined. -/
def editReceipt (db : Db) (body : EditReceiptDto) : Except String (Receipt × Db) :=
  match db.receipts.find? (fun r => r.id == body.id) with
  | none => .error "Receipt not found"
  | some existingReceipt =>
    let updatedReceipt : Receipt :=
      { existingReceipt with
        items := body.items.mapIdx (fun n item =>
          { id := existingReceipt.id ++ "-edit-" ++ toString n,
            invoiceItemId := item.invoiceItemId, amountPaid := item.amountPaid }),
        totalPaid := (body.items.map (fun item => item.amountPaid)).sum,
        paymentMethodId := body.paymentMethodId,
        paymentMethod := body.paymentMethod,
        paymentDetails := body.paymentDetails }
    let newReceipts := db.receipts.map
      (fun r => if r.id == existingReceipt.id then updatedReceipt else r)
    let db1 := { db with receipts := newReceipts }
    match checkInvoiceAfterReceipt db1 existingReceipt.invoiceId with
    | .error e => .error e
    | .ok db2 => .ok (updatedReceipt, db2)

/-- ReceiptsService.deleteReceipt: the receipt (with its items) is removed,
then the invoice is re-examined. -/
def deleteReceipt (db : Db) (rid : String) : Except String Db :=
  match db.receipts.find? (fun r => r.id == rid) with
  | none => .error "Receipt not found"
  | some existingReceipt =>
    let db1 := { db with receipts := db.receipts.filter (fun r => ¬ r.id == rid) }
    match checkInvoiceAfterReceipt db1 existingReceipt.invoiceId with
    | .error e => .error e
    | .ok db2 => .ok db2

/-- The three receipt operations C2 quantifies over. -/
inductive ReceiptOp
  | create (body : CreateReceiptDto)
  | edit (body : EditReceiptDto)
  | delete (rid : String)
  deriving Repr, DecidableEq

def runReceiptOp (db : Db) (op : ReceiptOp) : Except String Db :=
  match op with
  | .create body => (createReceipt db body).map (fun p => p.2)
  | .edit body => (editReceipt db body).map (fun p => p.2)
  | .delete rid => deleteReceipt db rid

/-- The invoice the operation re-examines. -/
def opInvoiceId (db : Db) (op : ReceiptOp) : Option String :=
  match op with
  | .create body => some body.invoiceId
  | .edit body => (db.receipts.find? (fun r => r.id == body.id)).map (fun r => r.invoiceId)
  | .delete rid => (db.receipts.find? (fun r => r.id == rid)).map (fun r => r.invoiceId)

/-- Sum of totalPaid over the receipts an invoice currently has. -/
def paidSum (db : Db) (invoiceId : String) : ℚ :=
  ((db.receipts.filter (fun r => r.invoiceId == invoiceId)).map (fun r => r.totalPaid)).sum

end Receipts

/-! ## SignaturesService (src/unnamed/part_005) -/

namespace Signatures

inductive QuoteStatus
  | DRAFT | SENT | SIGNED | EXPIRED
  deriving Repr, DecidableEq

structure SClient where
  id : String
  contactEmail : String
  deriving Repr, DecidableEq

structure Quote where
  id : String
  number : Nat
  clientId : String
  companyId : String
  status : QuoteStatus
  deriving Repr, DecidableEq

/-- Modelled from the spec: the Prisma schema (prisma/schema.prisma) is not
under src.  The signature workflow (the deactivation of every other active
signature right after a create, and signQuote requiring isActive) shows that
a newly created Signature row defaults to isActive = true, otpUsed = false
and carries no otpCode or signedAt. -/
def newSignatureDefaults : Bool × Bool := (true, false)

structure Signature where
  id : String
  quoteId : String
  isActive : Bool
  otpCode : Option String
  otpUsed : Bool
  expiresAt : Option Int
  signedAt : Option Int
  deriving Repr, DecidableEq

structure MailTemplate where
  mtype : String
  companyId : String
  subject : String
  body : String
  deriving Repr, DecidableEq

/-- State touched by SignaturesService.  signingProvider is some id exactly
when pluginsService.getProviderByType(SIGNING) yields a provider whose
requestSignature is a function, the id being what requestSignature returns;
mailOk models whether mailService.sendMail succeeds. -/
structure Db where
  quotes : List Quote
  clients : List SClient
  signatures : List Signature
  mailTemplates : List MailTemplate
  signingProvider : Option String
  mailOk : Bool
  now : Int
  nextSigId : Nat
  deriving Repr, DecidableEq

def thirtyDaysMs : Int := 30 * 24 * 60 * 60 * 1000

def freshSigId (db : Db) : String := "sig-" ++ toString db.nextSigId

/-- SignaturesService.sendSignatureEmail.  The second component is the state
left behind even when the call throws (prisma runs without a transaction, so
a signature created before a later failure persists). -/
def sendSignatureEmail (db : Db) (quoteId : String) : Except String String × Db :=
  match db.signingProvider with
  | some pid => (.ok pid, db)
  | none =>
    let sigId := freshSigId db
    let newSig : Signature :=
      { id := sigId, quoteId := quoteId,
        isActive := newSignatureDefaults.1,
        otpCode := none, otpUsed := newSignatureDefaults.2,
        expiresAt := some (db.now + thirtyDaysMs), signedAt := none }
    let db1 := { db with signatures := db.signatures ++ [newSig], nextSigId := db.nextSigId + 1 }
    match db1.quotes.find? (fun q => q.id == quoteId) with
    | none => (.error "Quote not found or client information is missing.", db1)
    | some quote =>
      match db1.clients.find? (fun c => c.id == quote.clientId) with
      | none => (.error "Quote not found or client information is missing.", db1)
      | some client =>
        if client.contactEmail.isEmpty then
          (.error "Quote not found or client information is missing.", db1)
        else
          let newSignatures := db1.signatures.map (fun s =>
            if s.quoteId == quoteId && s.isActive && s.id != sigId
            then { s with isActive := false } else s)
          let db2 := { db1 with signatures := newSignatures }
          match db2.mailTemplates.find?
              (fun t => t.mtype == "SIGNATURE_REQUEST" && t.companyId == quote.companyId) with
          | none => (.error "Email template for signature request not found.", db2)
          | some _tpl =>
            if db2.mailOk then (.ok sigId, db2)
            else (.error "Failed to send signature email. Please check your SMTP configuration.", db2)

/-- SignaturesService.createSignature: after a successful sendSignatureEmail
the quote status is unconditionally written to SENT. -/
def createSignature (db : Db) (quoteId : String) : Except String String × Db :=
  match db.quotes.find? (fun q => q.id == quoteId) with
  | none => (.error "Quote not found or client information is missing.", db)
  | some quote =>
    match db.clients.find? (fun c => c.id == quote.clientId) with
    | none => (.error "Quote not found or client information is missing.", db)
    | some client =>
      if client.contactEmail.isEmpty then
        (.error "Quote not found or client information is missing.", db)
      else
        match sendSignatureEmail db quoteId with
        | (.error e, db1) => (.error e, db1)
        | (.ok sigId, db1) =>
          let newQuotes := db1.quotes.map
            (fun q => if q.id == quoteId then { q with status := .SENT } else q)
          let db2 := { db1 with quotes := newQuotes }
          (.ok sigId, db2)

/-- The prisma filter of signQuote: matching id and OTP code, unused, active,
not expired. -/
def signatureMatches (db : Db) (signatureId otpCode : String) (s : Signature) : Bool :=
  s.id == signatureId && s.otpCode == some otpCode && !s.otpUsed && s.isActive
    && s.expiresAt.any (fun e => db.now ≤ e)

/-- SignaturesService.signQuote. -/
def signQuote (db : Db) (signatureId otpCode : String) : Except String String × Db :=
  match db.signatures.find? (signatureMatches db signatureId otpCode) with
  | none => (.error "Invalid or expired OTP code.", db)
  | some signature =>
    let newSignatures := db.signatures.map (fun s =>
      if s.id == signature.id then { s with otpUsed := true, signedAt := some db.now } else s)
    let newQuotes := db.quotes.map
      (fun q => if q.id == signature.quoteId then { q with status := .SIGNED } else q)
    let db1 := { db with signatures := newSignatures, quotes := newQuotes }
    (.ok signature.quoteId, db1)

/-- The two signature operations C3 quantifies over. -/
inductive SigOp
  | create (quoteId : String)
  | sign (signatureId otpCode : String)
  deriving Repr, DecidableEq

def runSigOp (db : Db) (op : SigOp) : Db :=
  match op with
  | .create quoteId => (createSignature db quoteId).2
  | .sign signatureId otpCode => (signQuote db signatureId otpCode).2

def runSigOps (db : Db) (ops : List SigOp) : Db :=
  ops.foldl runSigOp db

end Signatures

/-! ## StatsService (src/unnamed/part_002) -/

namespace Stats

/-- A JS Date split into the pieces getMonthlyStats consumes: getFullYear(),
getMonth() (0-based) and the millisecond offset inside the month.  The order
of the underlying timestamps is the lexicographic order of the triple. -/
structure Date where
  year : Int
  month : Nat
  ms : Nat
  deriving Repr, DecidableEq

/-- Millisecond offset of the 23:59:59.999 end of a 31-day month. -/
def decEndMs : Nat := 31 * 24 * 60 * 60 * 1000 - 1

/-- new Date(year, 0, 1). -/
def startOfYear (y : Int) : Date := { year := y, month := 0, ms := 0 }

/-- new Date(year, 11, 31, 23, 59, 59, 999). -/
def endOfYear (y : Int) : Date := { year := y, month := 11, ms := decEndMs }

/-- Comparison of the underlying timestamps. -/
def Date.leb (a b : Date) : Bool :=
  if a.year < b.year then true
  else if a.year = b.year then
    if a.month < b.month then true
    else if a.month = b.month then decide (a.ms ≤ b.ms)
    else false
  else false

/-- A calendar date: the month is 0..11 and the offset stays inside the month. -/
def Date.wf (d : Date) : Prop := d.month < 12 ∧ d.ms ≤ decEndMs

/-- Rounding to the nearest integer, ties going up (the magnitude branch of
Number.prototype.toFixed). -/
def roundHalfUp (q : ℚ) : ℤ := ⌊q + 1/2⌋

/-- Number(x.toFixed(2)): round half away from zero at two decimals. -/
def jsToFixed2 (q : ℚ) : ℚ :=
  if q < 0 then -((roundHalfUp (-q * 100) : ℚ) / 100)
  else (roundHalfUp (q * 100) : ℚ) / 100

structure SCompany where
  id : String
  deriving Repr, DecidableEq

structure InvItem where
  id : String
  vatRate : ℚ
  deriving Repr, DecidableEq

structure SInvoice where
  id : String
  currency : String
  totalTTC : ℚ
  isActive : Bool
  createdAt : Date
  items : List InvItem
  deriving Repr, DecidableEq

structure SReceiptItem where
  invoiceItemId : String
  amountPaid : ℚ
  deriving Repr, DecidableEq

structure SReceipt where
  id : String
  invoiceId : String
  totalPaid : ℚ
  createdAt : Date
  items : List SReceiptItem
  deriving Repr, DecidableEq

structure Db where
  companies : List SCompany
  invoices : List SInvoice
  receipts : List SReceipt
  deriving Repr, DecidableEq

structure MonthStat where
  month : Nat
  invoiced : ℚ
  revenue : ℚ
  deposits : ℚ
  deriving Repr, DecidableEq, Inhabited

/-- The Map<string, { months }> of the source, as an insertion-ordered
association list (the iteration order of a JS Map). -/
abbrev MonthsMap := List (String × List MonthStat)

def zeroMonths : List MonthStat :=
  (List.range 12).map (fun i => { month := i + 1, invoiced := 0, revenue := 0, deposits := 0 })

/-- The ensureCurrency closure of getMonthlyStats. -/
def ensureCurrency (m : MonthsMap) (c : String) : MonthsMap :=
  if m.any (fun kv => kv.1 == c) then m else m ++ [(c, zeroMonths)]

/-- ensureCurrency followed by the in-place update of one month of one
currency, as every loop body of getMonthlyStats performs it. -/
def addAt (m : MonthsMap) (c : String) (idx : Nat) (f : MonthStat → MonthStat) : MonthsMap :=
  (ensureCurrency m c).map (fun kv =>
    if kv.1 == c then (kv.1, kv.2.mapIdx (fun j s => if j == idx then f s else s)) else kv)

/-- net = amountPaid / (1 + vatRate/100) summed over the receipt items, the
vat rate looked up on the invoice items (missing or zero rate counting 0). -/
def receiptNet (r : SReceipt) (invItems : List InvItem) : ℚ :=
  (r.items.map (fun item =>
    let vat := ((invItems.find? (fun ii => ii.id == item.invoiceItemId)).map
      (fun ii => ii.vatRate)).getD 0
    item.amountPaid / (1 + vat / 100))).sum

/-- The receipts of one invoice ordered by createdAt ascending, as the
prisma include orderBy returns them. -/
def sortedReceiptsOf (db : Db) (invId : String) : List SReceipt :=
  (db.receipts.filter (fun r => r.invoiceId == invId)).mergeSort
    (fun a b => Date.leb a.createdAt b.createdAt)

/-- The cumulative-receipt scan of getMonthlyStats: the createdAt of the
first receipt at which the running totalPaid sum reaches totalTTC. -/
def firstPaidDateAux (ttc : ℚ) (cum : ℚ) : List SReceipt → Option Date
  | [] => none
  | r :: rest =>
    if ttc ≤ cum + r.totalPaid then some r.createdAt
    else firstPaidDateAux ttc (cum + r.totalPaid) rest

def firstPaidDate (ttc : ℚ) (rs : List SReceipt) : Option Date :=
  firstPaidDateAux ttc 0 rs

/-- Number(v.toFixed(2)) applied to the three monthly values, the final
rounding pass of getMonthlyStats. -/
def roundMonth (m : MonthStat) : MonthStat :=
  { m with invoiced := jsToFixed2 m.invoiced, revenue := jsToFixed2 m.revenue,
           deposits := jsToFixed2 m.deposits }

/-- The invoicesInYear query of getMonthlyStats. -/
def invoicesInYearOf (db : Db) (year : Int) : List SInvoice :=
  db.invoices.filter (fun i =>
    i.isActive && Date.leb (startOfYear year) i.createdAt
      && Date.leb i.createdAt (endOfYear year))

/-- The receiptsInYear query of getMonthlyStats. -/
def receiptsInYearOf (db : Db) (year : Int) : List SReceipt :=
  db.receipts.filter (fun r =>
    Date.leb (startOfYear year) r.createdAt && Date.leb r.createdAt (endOfYear year))

/-- The invoicesWithReceipts query of getMonthlyStats. -/
def invoicesWithReceiptsOf (db : Db) : List SInvoice :=
  db.invoices.filter (fun i => i.isActive && db.receipts.any (fun r => r.invoiceId == i.id))

/-- The paidInvoices list of getMonthlyStats: each fully paid invoice with
the createdAt of the receipt that completed the payment. -/
def paidInvoicesOf (db : Db) : List (SInvoice × Date) :=
  (invoicesWithReceiptsOf db).filterMap (fun i =>
    (firstPaidDate i.totalTTC (sortedReceiptsOf db i.id)).map (fun d => (i, d)))

/-- First loop of getMonthlyStats: invoiced (with VAT) grouped by the month
of invoice.createdAt and by invoice.currency. -/
def invoicedLoop (db : Db) (year : Int) (m0 : MonthsMap) : MonthsMap :=
  (invoicesInYearOf db year).foldl (fun acc inv =>
    addAt acc inv.currency inv.createdAt.month
      (fun m => { m with invoiced := m.invoiced + inv.totalTTC })) m0

/-- Second loop of getMonthlyStats: revenue (without VAT) from the receipts
of the period, skipped when the receipt has no invoice currency. -/
def revenueLoop (db : Db) (year : Int) (m0 : MonthsMap) : MonthsMap :=
  (receiptsInYearOf db year).foldl (fun acc r =>
    match db.invoices.find? (fun i => i.id == r.invoiceId) with
    | none => acc
    | some inv =>
      if inv.currency.isEmpty then acc
      else addAt acc inv.currency r.createdAt.month
        (fun m => { m with revenue := m.revenue + receiptNet r inv.items })) m0

/-- Third loop of getMonthlyStats: each fully paid invoice deposits its
totalTTC in the month its payment completed, when that month lies in the
requested year. -/
def depositsLoop (db : Db) (year : Int) (m0 : MonthsMap) : MonthsMap :=
  (paidInvoicesOf db).foldl (fun acc p =>
    if p.2.year == year then
      addAt acc p.1.currency p.2.month
        (fun m => { m with deposits := m.deposits + p.1.totalTTC })
    else acc) m0

/-- StatsService.getMonthlyStats, its three aggregation loops named after
the local bindings of the source, followed by the rounding pass. -/
def getMonthlyStats (db : Db) (year : Int) : Except String MonthsMap :=
  match db.companies.head? with
  | none => .error "No company found. Please create a company first."
  | some _company =>
    .ok ((depositsLoop db year (revenueLoop db year (invoicedLoop db year []))).map
      (fun kv => (kv.1, kv.2.map roundMonth)))

/-- The months array held for a currency, zeroMonths when the key is absent. -/
def monthsOf (m : MonthsMap) (c : String) : List MonthStat :=
  ((m.find? (fun kv => kv.1 == c)).map Prod.snd).getD zeroMonths

/-- The stat record of one month of one currency. -/
def statAt (m : MonthsMap) (c : String) (i : Nat) : MonthStat :=
  (monthsOf m c).getD i default

/-- Every entry of the map holds twelve months. -/
def MapLen (m : MonthsMap) : Prop := ∀ kv ∈ m, kv.2.length = 12

/-- The currencies of the map are pairwise distinct. -/
def KeysNodup (m : MonthsMap) : Prop := (m.map Prod.fst).Nodup

end Stats

/-! ## C7: the cron runner is a stub -/

/-- C7: CronService.runScheduledTasks performs no scheduled work: for every
application state it reads and writes no database records and leaves every
record unchanged, its only effect being the emission of a single log entry. -/
theorem c7_cron_is_stub {σ : Type} (db : σ) :
    (Cron.runScheduledTasks db).1 = db ∧
    (Cron.runScheduledTasks db).2 =
      [{ level := "info", message := "Scheduled tasks executed", category := "cron" }] :=
  ⟨rfl, rfl⟩

/-! ## C8: InvitationsService.canRegister -/

/-- C8: canRegister allows registration without a code exactly when no user
exists; with at least one user it allows registration iff a code is supplied
that is found, unused and not expired, and otherwise answers allowed = false,
requiresCode = true with a message naming the failing check (missing,
invalid, already used, or expired). -/
theorem c8_canRegister_spec (db : Invitations.Db) (code : Option String) :
    (db.userCount = 0 →
      Invitations.canRegister db code =
        { allowed := true, requiresCode := false, message := none }) ∧
    (db.userCount ≠ 0 →
      (Invitations.canRegister db code).requiresCode = true ∧
      ((Invitations.canRegister db code).allowed = true ↔
        Invitations.strFalsy code = false ∧
        ∃ inv, db.invitationCodes.find? (fun i => some i.code == code) = some inv ∧
          inv.usedAt = none ∧ ∀ e, inv.expiresAt = some e → ¬ e < db.now) ∧
      (Invitations.strFalsy code = true →
        (Invitations.canRegister db code).allowed = false ∧
        (Invitations.canRegister db code).message =
          some "An invitation code is required to register") ∧
      (Invitations.strFalsy code = false →
        db.invitationCodes.find? (fun i => some i.code == code) = none →
        (Invitations.canRegister db code).allowed = false ∧
        (Invitations.canRegister db code).message = some "Invalid invitation code") ∧
      (∀ inv, Invitations.strFalsy code = false →
        db.invitationCodes.find? (fun i => some i.code == code) = some inv →
        inv.usedAt ≠ none →
        (Invitations.canRegister db code).allowed = false ∧
        (Invitations.canRegister db code).message =
          some "This invitation code has already been used") ∧
      (∀ inv e, Invitations.strFalsy code = false →
        db.invitationCodes.find? (fun i => some i.code == code) = some inv →
        inv.usedAt = none → inv.expiresAt = some e → e < db.now →
        (Invitations.canRegister db code).allowed = false ∧
        (Invitations.canRegister db code).message =
          some "This invitation code has expired")) := by
  constructor
  · intro h0
    simp [Invitations.canRegister, h0]
  · intro h0
    cases hf : db.invitationCodes.find? (fun i => some i.code == code) with
    | none =>
      by_cases hs : Invitations.strFalsy code = true
      · simp [Invitations.canRegister, h0, hf, hs]
      · simp only [Bool.not_eq_true] at hs
        simp [Invitations.canRegister, h0, hf, hs]
    | some inv =>
      by_cases hs : Invitations.strFalsy code = true
      · simp [Invitations.canRegister, h0, hf, hs]
      · simp only [Bool.not_eq_true] at hs
        by_cases hu : inv.usedAt.isSome
        · rcases Option.isSome_iff_exists.mp hu with ⟨u, hu'⟩
          simp [Invitations.canRegister, h0, hf, hs, hu']
          rintro i e rfl hun
          simp [hu'] at hun
        · simp only [Bool.not_eq_true, Option.not_isSome, Option.isNone_iff_eq_none] at hu
          cases he : inv.expiresAt with
          | none =>
            simp [Invitations.canRegister, h0, hf, hs, hu, he]
            rintro i e rfl hun hexp
            simp [he] at hexp
          | some e =>
            by_cases hlt : e < db.now
            · simp [Invitations.canRegister, h0, hf, hs, hu, he, hlt]
            · simp [Invitations.canRegister, h0, hf, hs, hu, he, hlt]
              refine ⟨by omega, ?_⟩
              rintro i e2 rfl hun hexp
              rw [he] at hexp
              cases hexp
              omega

/-- Witness for C8 at a concrete state: with no users registration is open. -/
theorem c8_canRegister_spec_witness :
    Invitations.canRegister { userCount := 0, invitationCodes := [], now := 0 } (some "AB")
      = { allowed := true, requiresCode := false, message := none } :=
  (c8_canRegister_spec { userCount := 0, invitationCodes := [], now := 0 } (some "AB")).1 rfl

/-- The caught webhook dispatch never touches the record tables. -/
theorem tryDispatch_tables (db : Invoices.Db) (e r : String) :
    (Invoices.tryDispatch db e r).invoices = db.invoices ∧
    (Invoices.tryDispatch db e r).clients = db.clients ∧
    (Invoices.tryDispatch db e r).companies = db.companies := by
  unfold Invoices.tryDispatch
  split <;> simp

/-! ## C10: deleteInvoice and deleteClient are soft deletes -/

/-- C10: InvoicesService.deleteInvoice and ClientsService.deleteClient only
flip isActive to false on the targeted record, leave every other field (and
the items held inside the invoice record) unchanged, keep the record in the
table, leave the other tables alone, and throw BadRequestException without
any state change when the id does not resolve. -/
theorem c10_soft_deletes (db : Invoices.Db) (iid cid : String) :
    (db.invoices.find? (fun i => i.id == iid) = none →
      Invoices.deleteInvoice db iid = (.error "Invoice not found", db)) ∧
    (∀ inv db', Invoices.deleteInvoice db iid = (.ok inv, db') →
      ∃ existing, db.invoices.find? (fun i => i.id == iid) = some existing ∧
        existing ∈ db.invoices ∧
        inv = { existing with isActive := false } ∧
        inv ∈ db'.invoices ∧
        db'.invoices = db.invoices.map
          (fun i => if i.id == iid then { i with isActive := false } else i) ∧
        db'.clients = db.clients ∧ db'.companies = db.companies) ∧
    (db.clients.find? (fun c => c.id == cid) = none →
      Invoices.deleteClient db cid = (.error "Client not found", db)) ∧
    (∀ cl db', Invoices.deleteClient db cid = (.ok cl, db') →
      ∃ existing, db.clients.find? (fun c => c.id == cid) = some existing ∧
        existing ∈ db.clients ∧
        cl = { existing with isActive := false } ∧
        cl ∈ db'.clients ∧
        db'.clients = db.clients.map
          (fun c => if c.id == cid then { c with isActive := false } else c) ∧
        db'.invoices = db.invoices ∧ db'.companies = db.companies) := by
  refine ⟨?_, ?_, ?_, ?_⟩
  · intro hf
    simp [Invoices.deleteInvoice, hf]
  · intro inv db' h
    cases hf : db.invoices.find? (fun i => i.id == iid) with
    | none => simp [Invoices.deleteInvoice, hf] at h
    | some existing =>
      have hid := List.find?_some hf
      simp only [Invoices.deleteInvoice, hf] at h
      injection h with h1 h2
      injection h1 with h1
      subst h1
      subst h2
      refine ⟨existing, rfl, List.mem_of_find?_eq_some hf, rfl, ?_, ?_, ?_, ?_⟩
      · rw [(tryDispatch_tables _ _ _).1]
        have := List.mem_map_of_mem
          (fun i => if i.id == iid then { i with isActive := false } else i)
          (List.mem_of_find?_eq_some hf)
        simpa [hid] using this
      · exact (tryDispatch_tables _ _ _).1
      · exact (tryDispatch_tables _ _ _).2.1
      · exact (tryDispatch_tables _ _ _).2.2
  · intro hf
    simp [Invoices.deleteClient, hf]
  · intro cl db' h
    cases hf : db.clients.find? (fun c => c.id == cid) with
    | none => simp [Invoices.deleteClient, hf] at h
    | some existing =>
      have hid := List.find?_some hf
      simp only [Invoices.deleteClient, hf] at h
      injection h with h1 h2
      injection h1 with h1
      subst h1
      subst h2
      refine ⟨existing, rfl, List.mem_of_find?_eq_some hf, rfl, ?_, ?_, ?_, ?_⟩
      · rw [(tryDispatch_tables _ _ _).2.1]
        have := List.mem_map_of_mem
          (fun c => if c.id == cid then { c with isActive := false } else c)
          (List.mem_of_find?_eq_some hf)
        simpa [hid] using this
      · exact (tryDispatch_tables _ _ _).2.1
      · exact (tryDispatch_tables _ _ _).1
      · exact (tryDispatch_tables _ _ _).2.2

/-- Witness for C10: deleting an id that does not resolve throws and leaves
the state untouched. -/
theorem c10_soft_deletes_witness :
    Invoices.deleteInvoice
      { companies := [], clients := [], invoices := [], webhookOk := true,
        dispatched := [], now := 0, nextId := 0 } "missing"
      = (.error "Invoice not found",
         { companies := [], clients := [], invoices := [], webhookOk := true,
           dispatched := [], now := 0, nextId := 0 }) :=
  (c10_soft_deletes
    { companies := [], clients := [], invoices := [], webhookOk := true,
      dispatched := [], now := 0, nextId := 0 } "missing" "c").1 rfl

/-- Linearity of the three reduce expressions of createInvoice: the gross sum
is the net sum plus the vat sum. -/
theorem totals_identity (items : List Invoices.ItemInput) :
    Invoices.totalTTCOf items = Invoices.totalHTOf items + Invoices.totalVATOf items := by
  induction items with
  | nil => simp [Invoices.totalHTOf, Invoices.totalVATOf, Invoices.totalTTCOf]
  | cons i rest ih =>
    simp only [Invoices.totalHTOf, Invoices.totalVATOf, Invoices.totalTTCOf,
      List.map_cons, List.sum_cons] at ih ⊢
    rw [ih]
    ring

/-! ## C1: stored invoice totals -/

/-- C1: every invoice written by createInvoice, and the recomputation done by
editInvoice, stores totalHT as the sum of quantity times unitPrice over the
submitted items, totalVAT as the sum of quantity times unitPrice times
vatRate over 100 (a missing vatRate counting 0), and totalTTC as
totalHT plus totalVAT; with exemptVat set and country FRANCE
(case-insensitively) totalVAT is 0, totalTTC equals totalHT and every stored
item carries vatRate 0. -/
theorem c1_invoice_totals (db : Invoices.Db) :
    (∀ body inv db', Invoices.createInvoice db body = (.ok inv, db') →
      ∃ company, db.companies.head? = some company ∧
        inv.totalHT = Invoices.totalHTOf body.items ∧
        inv.totalTTC = inv.totalHT + inv.totalVAT ∧
        (Invoices.isVatExemptFrance company = false →
          inv.totalVAT = Invoices.totalVATOf body.items) ∧
        (Invoices.isVatExemptFrance company = true →
          inv.totalVAT = 0 ∧ inv.totalTTC = inv.totalHT ∧
          ∀ it ∈ inv.items, it.vatRate = 0)) ∧
    (∀ body inv db', Invoices.editInvoice db body = (.ok inv, db') →
      ∃ company, db.companies.head? = some company ∧
        inv.totalHT = Invoices.totalHTOf body.items ∧
        inv.totalTTC = inv.totalHT + inv.totalVAT ∧
        (Invoices.isVatExemptFrance company = false →
          inv.totalVAT = Invoices.totalVATOf body.items) ∧
        (Invoices.isVatExemptFrance company = true →
          inv.totalVAT = 0 ∧ inv.totalTTC = inv.totalHT ∧
          ∀ it ∈ inv.items, it.vatRate = 0)) := by
  constructor
  · intro body inv db' h
    cases hc : db.companies.head? with
    | none => simp [Invoices.createInvoice, hc] at h
    | some company =>
      cases hf : db.clients.find? (fun c => c.id == body.clientId) with
      | none => simp [Invoices.createInvoice, hc, hf] at h
      | some client =>
        simp only [Invoices.createInvoice, hc, hf] at h
        injection h with h1 h2
        injection h1 with h1
        subst h1
        subst h2
        refine ⟨company, rfl, rfl, ?_, ?_, ?_⟩
        · cases hex : Invoices.isVatExemptFrance company with
          | false => simp [hex, totals_identity body.items]
          | true => simp [hex]
        · intro hex
          simp [hex]
        · intro hex
          refine ⟨by simp [hex], by simp [hex], ?_⟩
          intro it hit
          simp only at hit
          rw [List.mem_mapIdx] at hit
          obtain ⟨n, hn, hb⟩ := hit
          rw [← hb]
          simp [Invoices.storedItem, hex]
  · intro body inv db' h
    by_cases hid : body.id.isEmpty
    · simp [Invoices.editInvoice, hid] at h
    · cases hc : db.companies.head? with
      | none => simp [Invoices.editInvoice, hid, hc] at h
      | some company =>
        cases hf : db.clients.find? (fun c => c.id == body.clientId) with
        | none => simp [Invoices.editInvoice, hid, hc, hf] at h
        | some client =>
          cases hi : db.invoices.find? (fun i => i.id == body.id) with
          | none => simp [Invoices.editInvoice, hid, hc, hf, hi] at h
          | some existingInvoice =>
            simp only [Invoices.editInvoice, hid, hc, hf, hi] at h
            injection h with h1 h2
            injection h1 with h1
            subst h1
            subst h2
            refine ⟨company, rfl, rfl, ?_, ?_, ?_⟩
            · cases hex : Invoices.isVatExemptFrance company with
              | false => simp [hex, totals_identity body.items]
              | true => simp [hex]
            · intro hex
              simp [hex]
            · intro hex
              refine ⟨by simp [hex], by simp [hex], ?_⟩
              intro it hit
              simp only at hit
              rcases List.mem_append.mp hit with hmem | hmem
              · rcases List.mem_map.mp hmem with ⟨it0, hit0, hg⟩
                have hkept := (List.mem_filter.mp hit0).2
                rcases List.contains_iff_exists_mem_beq.mp hkept with ⟨y, hy, hbeq⟩
                have hidy : it0.id = y := by simpa using hbeq
                rcases List.mem_filterMap.mp hy with ⟨i0, hi0, hid0⟩
                have hsome : (body.items.find? (fun i => i.id == some it0.id)).isSome := by
                  rw [List.find?_isSome]
                  exact ⟨i0, (List.mem_filter.mp hi0).1, by simp [hid0, hidy]⟩
                rcases Option.isSome_iff_exists.mp hsome with ⟨j, hj⟩
                rw [hj] at hg
                rw [← hg]
                simp [Invoices.storedItem, hex]
              · rw [List.mem_mapIdx] at hmem
                obtain ⟨n, hn, hb⟩ := hmem
                rw [← hb]
                simp [Invoices.storedItem, hex]

/-- Witness for C1: the stored totals of a concrete created invoice satisfy
the sum equations. -/
theorem c1_invoice_totals_witness :
    (Invoices.createInvoice
      { companies := [{ id := "co", currency := "EUR", exemptVat := false,
                        country := none }],
        clients := [{ id := "c1", name := "Ada", contactEmail := "ada@e.x",
                      currency := none, isActive := true }],
        invoices := [], webhookOk := false, dispatched := [], now := 0, nextId := 0 }
      { clientId := "c1", quoteId := none, recurringInvoiceId := none,
        paymentMethod := none, paymentDetails := none, paymentMethodId := none,
        notes := none, currency := none, dueDate := some 99, items := [] }).1.map
      (fun inv => (inv.totalHT, inv.totalVAT, inv.totalTTC))
      = Except.ok ((0 : ℚ), 0, 0) := by
  have h : Invoices.createInvoice
      { companies := [{ id := "co", currency := "EUR", exemptVat := false,
                        country := none }],
        clients := [{ id := "c1", name := "Ada", contactEmail := "ada@e.x",
                      currency := none, isActive := true }],
        invoices := [], webhookOk := false, dispatched := [], now := 0, nextId := 0 }
      { clientId := "c1", quoteId := none, recurringInvoiceId := none,
        paymentMethod := none, paymentDetails := none, paymentMethodId := none,
        notes := none, currency := none, dueDate := some 99, items := [] }
      = (.ok { id := "invoice-0", clientId := "c1", companyId := "co", quoteId := none,
               recurringInvoiceId := none, paymentMethod := none, paymentDetails := none,
               paymentMethodId := none, notes := none, currency := "EUR",
               totalHT := 0, totalVAT := 0, totalTTC := 0, items := [], dueDate := 99,
               isActive := true },
         { companies := [{ id := "co", currency := "EUR", exemptVat := false,
                           country := none }],
           clients := [{ id := "c1", name := "Ada", contactEmail := "ada@e.x",
                         currency := none, isActive := true }],
           invoices := [{ id := "invoice-0", clientId := "c1", companyId := "co",
                          quoteId := none, recurringInvoiceId := none,
                          paymentMethod := none, paymentDetails := none,
                          paymentMethodId := none, notes := none, currency := "EUR",
                          totalHT := 0, totalVAT := 0, totalTTC := 0, items := [],
                          dueDate := 99, isActive := true }],
           webhookOk := false, dispatched := [], now := 0, nextId := 1 }) := rfl
  obtain ⟨c, hc, h1, h2, h3, h4⟩ := (c1_invoice_totals _).1 _ _ _ h
  have hcc : c = { id := "co", currency := "EUR", exemptVat := false,
                   country := none } := by simpa using hc.symm
  subst hcc
  have hex : Invoices.isVatExemptFrance
      { id := "co", currency := "EUR", exemptVat := false, country := none } = false := rfl
  have hVAT := h3 hex
  have hTTC := h2
  have hHT := h1
  rw [h]
  simp only [Except.map]

/-! ## C5: createInvoice validates before writing; webhook is best effort -/

/-- C5: createInvoice throws BadRequestException with no state change when no
company exists or the clientId does not resolve; on success the new invoice
is appended to the table, the INVOICE_CREATED dispatch happens only after the
write (it appends to the dispatch log exactly when dispatch succeeds), and a
dispatch failure changes neither the returned invoice nor the stored data. -/
theorem c5_createInvoice_best_effort (db : Invoices.Db) (body : Invoices.CreateInvoiceDto) :
    (db.companies.head? = none →
      Invoices.createInvoice db body =
        (.error "No company found. Please create a company first.", db)) ∧
    (db.companies.head? ≠ none →
      db.clients.find? (fun c => c.id == body.clientId) = none →
      Invoices.createInvoice db body = (.error "Client not found", db)) ∧
    (∀ inv db', Invoices.createInvoice db body = (.ok inv, db') →
      db'.invoices = db.invoices ++ [inv] ∧
      inv ∈ db'.invoices ∧
      (db.webhookOk = true →
        db'.dispatched = db.dispatched ++ [("INVOICE_CREATED", inv.id)]) ∧
      (db.webhookOk = false → db'.dispatched = db.dispatched)) ∧
    (∀ b1 b2 : Bool,
      (Invoices.createInvoice { db with webhookOk := b1 } body).1 =
        (Invoices.createInvoice { db with webhookOk := b2 } body).1 ∧
      (Invoices.createInvoice { db with webhookOk := b1 } body).2.invoices =
        (Invoices.createInvoice { db with webhookOk := b2 } body).2.invoices) := by
  refine ⟨?_, ?_, ?_, ?_⟩
  · intro hc
    simp [Invoices.createInvoice, hc]
  · intro hc hf
    rcases Option.ne_none_iff_exists.mp hc with ⟨company, hc'⟩
    simp [Invoices.createInvoice, ← hc', hf]
  · intro inv db' h
    cases hc : db.companies.head? with
    | none => simp [Invoices.createInvoice, hc] at h
    | some company =>
      cases hf : db.clients.find? (fun c => c.id == body.clientId) with
      | none => simp [Invoices.createInvoice, hc, hf] at h
      | some client =>
        simp only [Invoices.createInvoice, hc, hf] at h
        injection h with h1 h2
        injection h1 with h1
        subst h1
        subst h2
        refine ⟨(tryDispatch_tables _ _ _).1, ?_, ?_, ?_⟩
        · rw [(tryDispatch_tables _ _ _).1]
          simp
        · intro hw
          simp [Invoices.tryDispatch, hw]
        · intro hw
          simp [Invoices.tryDispatch, hw]
  · intro b1 b2
    cases hc : db.companies.head? with
    | none => simp [Invoices.createInvoice, hc]
    | some company =>
      cases hf : db.clients.find? (fun c => c.id == body.clientId) with
      | none => simp [Invoices.createInvoice, hc, hf]
      | some client =>
        constructor
        · simp [Invoices.createInvoice, hc, hf]
        · simp only [Invoices.createInvoice, hc, hf, Invoices.tryDispatch]
          cases b1 <;> cases b2 <;> simp

/-- Witness for C5: creation against an empty database reports the missing
company and leaves the state unchanged. -/
theorem c5_createInvoice_best_effort_witness :
    Invoices.createInvoice
      { companies := [], clients := [], invoices := [], webhookOk := true,
        dispatched := [], now := 0, nextId := 0 }
      { clientId := "c1", quoteId := none, recurringInvoiceId := none,
        paymentMethod := none, paymentDetails := none, paymentMethodId := none,
        notes := none, currency := none, dueDate := none, items := [] }
      = (.error "No company found. Please create a company first.",
         { companies := [], clients := [], invoices := [], webhookOk := true,
           dispatched := [], now := 0, nextId := 0 }) :=
  (c5_createInvoice_best_effort
    { companies := [], clients := [], invoices := [], webhookOk := true,
      dispatched := [], now := 0, nextId := 0 }
    { clientId := "c1", quoteId := none, recurringInvoiceId := none,
      paymentMethod := none, paymentDetails := none, paymentMethodId := none,
      notes := none, currency := none, dueDate := none, items := [] }).1 rfl

/-- With pairwise distinct keys, find? by the key of a member returns that
member. -/
theorem nodup_key_find? {α : Type} (key : α → String) (l : List α)
    (hno : (l.map key).Nodup) (x : α) (hmem : x ∈ l) :
    l.find? (fun y => key y == key x) = some x := by
  induction l with
  | nil => cases hmem
  | cons a t ih =>
    rcases List.mem_cons.mp hmem with rfl | hmem'
    · simp [List.find?_cons]
    · have hne : key a ≠ key x := by
        intro he
        have hx : key x ∈ t.map key := List.mem_map_of_mem key hmem'
        rw [← he] at hx
        exact (List.nodup_cons.mp (by simpa using hno)).1 hx
      have hbeq : (key a == key x) = false := by simpa using hne
      rw [List.find?_cons, hbeq]
      exact ih (List.nodup_cons.mp (by simpa using hno)).2 hmem'

/-- paidSum only reads the receipts table. -/
theorem paidSum_eq_of_receipts {a b : Receipts.Db} (h : a.receipts = b.receipts)
    (iid : String) : Receipts.paidSum a iid = Receipts.paidSum b iid := by
  unfold Receipts.paidSum
  rw [h]

/-- Behaviour of checkInvoiceAfterReceipt: it never touches receipts, flips
an UNPAID invoice to PAID exactly when the receipts cover totalTTC, and does
nothing when the invoice is in any other status. -/
theorem checkInvoice_spec (db1 : Receipts.Db) (iid : String) (db2 : Receipts.Db)
    (hno : (db1.invoices.map (fun i => i.id)).Nodup)
    (h : Receipts.checkInvoiceAfterReceipt db1 iid = .ok db2) :
    db2.receipts = db1.receipts ∧
    (∀ inv ∈ db1.invoices, inv.id = iid →
      (inv.status = .UNPAID →
        ∀ inv' ∈ db2.invoices, inv'.id = iid →
          ((inv'.status = .PAID ↔ inv.totalTTC ≤ Receipts.paidSum db1 iid) ∧
           (inv'.status = .PAID ∨ inv'.status = .UNPAID))) ∧
      (inv.status ≠ .UNPAID → db2 = db1)) ∧
    (∀ inv ∈ db1.invoices, inv.id ≠ iid → inv ∈ db2.invoices) := by
  cases hf : db1.invoices.find? (fun i => i.id == iid) with
  | none => simp [Receipts.checkInvoiceAfterReceipt, hf] at h
  | some invF =>
    have hFid : invF.id = iid := by simpa using List.find?_some hf
    have hFmem : invF ∈ db1.invoices := List.mem_of_find?_eq_some hf
    have huniq : ∀ inv ∈ db1.invoices, inv.id = iid → inv = invF := by
      intro inv hmem hid
      have hfx : db1.invoices.find? (fun y => y.id == inv.id) = some inv :=
        nodup_key_find? (fun i => i.id) db1.invoices hno inv hmem
      rw [hid] at hfx
      rw [hfx] at hf
      exact Option.some.inj hf
    by_cases hst : invF.status = Receipts.InvoiceStatus.UNPAID
    · have hsum : Receipts.paidSum db1 iid =
          ((db1.receipts.filter (fun r => r.invoiceId == iid)).map
            (fun r => r.totalPaid)).sum := rfl
      by_cases hle : invF.totalTTC ≤ Receipts.paidSum db1 iid
      · have hle' : invF.totalTTC ≤
            ((db1.receipts.filter (fun r => r.invoiceId == iid)).map
              (fun r => r.totalPaid)).sum := hsum ▸ hle
        simp only [Receipts.checkInvoiceAfterReceipt, hf, hst, if_true, hle', if_pos] at h
        injection h with h
        subst h
        refine ⟨rfl, ?_, ?_⟩
        · intro inv hmem hid
          have hinv := huniq inv hmem hid
          subst hinv
          refine ⟨?_, fun hne => absurd hst hne⟩
          intro _ inv' hmem' hid'
          simp only [Receipts.setInvoiceStatus] at hmem'
          rcases List.mem_map.mp hmem' with ⟨inv0, hmem0, hg⟩
          by_cases h0 : (inv0.id == iid) = true
          · rw [if_pos h0] at hg
            rw [← hg]
            exact ⟨by simp [hle], Or.inl rfl⟩
          · rw [if_neg (by simpa using h0)] at hg
            subst hg
            exact absurd (by simpa using hid') (by simpa using h0)
        · intro inv hmem hid
          simp only [Receipts.setInvoiceStatus]
          have hbeq : (inv.id == iid) = false := by simpa using hid
          have := List.mem_map_of_mem
            (fun i => if i.id == iid then { i with status := Receipts.InvoiceStatus.PAID } else i)
            hmem
          simpa [hbeq] using this
      · have hle' : ¬ invF.totalTTC ≤
            ((db1.receipts.filter (fun r => r.invoiceId == iid)).map
              (fun r => r.totalPaid)).sum := hsum ▸ hle
        simp only [Receipts.checkInvoiceAfterReceipt, hf, hst, if_true, hle', if_neg] at h
        injection h with h
        subst h
        refine ⟨rfl, ?_, ?_⟩
        · intro inv hmem hid
          have hinv := huniq inv hmem hid
          subst hinv
          refine ⟨?_, fun hne => absurd hst hne⟩
          intro _ inv' hmem' hid'
          simp only [Receipts.setInvoiceStatus] at hmem'
          rcases List.mem_map.mp hmem' with ⟨inv0, hmem0, hg⟩
          by_cases h0 : (inv0.id == iid) = true
          · rw [if_pos h0] at hg
            rw [← hg]
            refine ⟨?_, Or.inr rfl⟩
            simp only []
            constructor
            · intro hpaid
              cases hpaid
            · intro hcov
              exact absurd hcov hle
          · rw [if_neg (by simpa using h0)] at hg
            subst hg
            exact absurd (by simpa using hid') (by simpa using h0)
        · intro inv hmem hid
          simp only [Receipts.setInvoiceStatus]
          have hbeq : (inv.id == iid) = false := by simpa using hid
          have := List.mem_map_of_mem
            (fun i => if i.id == iid then { i with status := Receipts.InvoiceStatus.UNPAID } else i)
            hmem
          simpa [hbeq] using this
    · simp only [Receipts.checkInvoiceAfterReceipt, hf, hst, if_false, if_neg] at h
      injection h with h
      subst h
      refine ⟨rfl, ?_, fun inv hmem _ => hmem⟩
      intro inv hmem hid
      have hinv := huniq inv hmem hid
      subst hinv
      exact ⟨fun hu => absurd hu hst, fun _ => rfl⟩

/-! ## C2: receipts drive the UNPAID to PAID transition -/

/-- C2: after createReceipt, editReceipt or deleteReceipt completes for an
invoice, an UNPAID invoice is set to PAID exactly when the totalPaid sum of
its remaining receipts reaches totalTTC and stays UNPAID otherwise, while an
invoice in any other status keeps its status; invoices the operation does
not re-examine are left as they are. -/
theorem c2_receipt_ops_paid_transition (db : Receipts.Db) (op : Receipts.ReceiptOp)
    (db' : Receipts.Db) (iid : String)
    (hno : (db.invoices.map (fun i => i.id)).Nodup)
    (hop : Receipts.opInvoiceId db op = some iid)
    (hrun : Receipts.runReceiptOp db op = .ok db') :
    (∀ inv ∈ db.invoices, inv.id = iid →
      (inv.status = .UNPAID →
        ∀ inv' ∈ db'.invoices, inv'.id = iid →
          ((inv'.status = .PAID ↔ inv.totalTTC ≤ Receipts.paidSum db' iid) ∧
           (inv'.status = .PAID ∨ inv'.status = .UNPAID))) ∧
      (inv.status ≠ .UNPAID →
        ∀ inv' ∈ db'.invoices, inv'.id = iid → inv'.status = inv.status)) ∧
    (∀ inv ∈ db.invoices, inv.id ≠ iid → inv ∈ db'.invoices) := by
  have main : ∀ db1 : Receipts.Db,
      Receipts.checkInvoiceAfterReceipt db1 iid = .ok db' →
      db1.invoices = db.invoices →
      (∀ inv ∈ db.invoices, inv.id = iid →
        (inv.status = .UNPAID →
          ∀ inv' ∈ db'.invoices, inv'.id = iid →
            ((inv'.status = .PAID ↔ inv.totalTTC ≤ Receipts.paidSum db' iid) ∧
             (inv'.status = .PAID ∨ inv'.status = .UNPAID))) ∧
        (inv.status ≠ .UNPAID →
          ∀ inv' ∈ db'.invoices, inv'.id = iid → inv'.status = inv.status)) ∧
      (∀ inv ∈ db.invoices, inv.id ≠ iid → inv ∈ db'.invoices) := by
    intro db1 hchk hinv
    obtain ⟨hrec, hmain, hframe⟩ :=
      checkInvoice_spec db1 iid db' (by rw [hinv]; exact hno) hchk
    have hps : Receipts.paidSum db' iid = Receipts.paidSum db1 iid :=
      paidSum_eq_of_receipts hrec iid
    refine ⟨?_, ?_⟩
    · intro inv hmem hid
      obtain ⟨h1, h2⟩ := hmain inv (hinv ▸ hmem) hid
      refine ⟨?_, ?_⟩
      · intro hst inv' hmem' hid'
        rw [hps]
        exact h1 hst inv' hmem' hid'
      · intro hst inv' hmem' hid'
        have hdb : db' = db1 := h2 hst
        have hmem'' : inv' ∈ db.invoices := by
          rw [hdb, hinv] at hmem'
          exact hmem'
        have heq : inv' = inv := by
          have hfx : db.invoices.find? (fun y => y.id == inv'.id) = some inv' :=
            nodup_key_find? (fun i => i.id) db.invoices hno inv' hmem''
          have hfy : db.invoices.find? (fun y => y.id == inv.id) = some inv :=
            nodup_key_find? (fun i => i.id) db.invoices hno inv hmem
          rw [hid'] at hfx
          rw [hid] at hfy
          rw [hfx] at hfy
          exact Option.some.inj hfy
        rw [heq]
    · intro inv hmem hid
      exact hframe inv (hinv ▸ hmem) hid
  cases op with
  | create body =>
    have hiid : body.invoiceId = iid := by simpa [Receipts.opInvoiceId] using hop
    simp only [Receipts.runReceiptOp] at hrun
    cases hcr : Receipts.createReceipt db body with
    | error e => rw [hcr] at hrun; simp [Except.map] at hrun
    | ok p =>
      rw [hcr] at hrun
      simp only [Except.map] at hrun
      injection hrun with hrun
      cases hfi : db.invoices.find? (fun i => i.id == body.invoiceId) with
      | none => simp [Receipts.createReceipt, hfi] at hcr
      | some invoice =>
        have hinvid : invoice.id = body.invoiceId := by simpa using List.find?_some hfi
        simp only [Receipts.createReceipt, hfi] at hcr
        split at hcr
        · cases hcr
        · rename_i db2 hchk
          injection hcr with hcr
          rw [← hcr] at hrun
          simp only at hrun
          subst hrun
          rw [hinvid, hiid] at hchk
          exact main _ hchk rfl
  | edit body =>
    simp only [Receipts.runReceiptOp] at hrun
    cases hcr : Receipts.editReceipt db body with
    | error e => rw [hcr] at hrun; simp [Except.map] at hrun
    | ok p =>
      rw [hcr] at hrun
      simp only [Except.map] at hrun
      injection hrun with hrun
      cases hfr : db.receipts.find? (fun r => r.id == body.id) with
      | none => simp [Receipts.editReceipt, hfr] at hcr
      | some existing =>
        have hiid : existing.invoiceId = iid := by
          simpa [Receipts.opInvoiceId, hfr] using hop
        simp only [Receipts.editReceipt, hfr] at hcr
        split at hcr
        · cases hcr
        · rename_i db2 hchk
          injection hcr with hcr
          rw [← hcr] at hrun
          simp only at hrun
          subst hrun
          rw [hiid] at hchk
          exact main _ hchk rfl
  | delete rid =>
    simp only [Receipts.runReceiptOp] at hrun
    cases hfr : db.receipts.find? (fun r => r.id == rid) with
    | none => simp [Receipts.deleteReceipt, hfr] at hrun
    | some existing =>
      have hiid : existing.invoiceId = iid := by
        simpa [Receipts.opInvoiceId, hfr] using hop
      simp only [Receipts.deleteReceipt, hfr] at hrun
      split at hrun
      · cases hrun
      · rename_i db2 hchk
        injection hrun with hrun
        subst hrun
        rw [hiid] at hchk
        exact main _ hchk rfl

/-- Witness for C2: a receipt covering a zero-total UNPAID invoice flips it
to PAID, so the remaining receipts cover the total. -/
theorem c2_receipt_ops_paid_transition_witness :
    (0 : ℚ) ≤ Receipts.paidSum
      { invoices := [{ id := "i1", status := .PAID, totalTTC := 0 }],
        receipts := [{ id := "receipt-0", invoiceId := "i1", totalPaid := 0, items := [],
                       paymentMethodId := none, paymentMethod := none,
                       paymentDetails := none }],
        nextId := 1 } "i1" := by
  have h := c2_receipt_ops_paid_transition
    { invoices := [{ id := "i1", status := .UNPAID, totalTTC := 0 }],
      receipts := [], nextId := 0 }
    (.create { invoiceId := "i1", items := [], paymentMethodId := none,
               paymentMethod := none, paymentDetails := none })
    { invoices := [{ id := "i1", status := .PAID, totalTTC := 0 }],
      receipts := [{ id := "receipt-0", invoiceId := "i1", totalPaid := 0, items := [],
                     paymentMethodId := none, paymentMethod := none,
                     paymentDetails := none }],
      nextId := 1 }
    "i1" (by simp) rfl
    (by
      simp [Receipts.runReceiptOp, Receipts.createReceipt,
        Receipts.checkInvoiceAfterReceipt, Receipts.setInvoiceStatus, Except.map]
      rfl)
  obtain ⟨h1, _⟩ := h
  have h2 := (h1 ⟨"i1", .UNPAID, 0⟩ (by simp) rfl).1 rfl ⟨"i1", .PAID, 0⟩ (by simp) rfl
  exact h2.1.mp rfl

/-! ## C3 and C9: signature operations -/

/-- sendSignatureEmail never touches the quotes table, on any path. -/
theorem sendSignatureEmail_quotes (db : Signatures.Db) (quoteId : String) :
    (Signatures.sendSignatureEmail db quoteId).2.quotes = db.quotes := by
  unfold Signatures.sendSignatureEmail
  cases hP : db.signingProvider with
  | some pid => rfl
  | none =>
    simp only []
    split
    · rfl
    · split
      · rfl
      · split
        · rfl
        · split
          · rfl
          · split <;> rfl

/-- Each signature operation maps every quote either to itself or to the same
quote with status SENT or SIGNED. -/
theorem sigOp_status_step (db : Signatures.Db) (op : Signatures.SigOp) :
    ∀ q' ∈ (Signatures.runSigOp db op).quotes, ∃ q ∈ db.quotes,
      q.id = q'.id ∧
      (q'.status = q.status ∨ q'.status = .SENT ∨ q'.status = .SIGNED) := by
  intro q' hmem
  cases op with
  | create quoteId =>
    simp only [Signatures.runSigOp, Signatures.createSignature] at hmem
    split at hmem
    · exact ⟨q', hmem, rfl, Or.inl rfl⟩
    · split at hmem
      · exact ⟨q', hmem, rfl, Or.inl rfl⟩
      · split at hmem
        · exact ⟨q', hmem, rfl, Or.inl rfl⟩
        · split at hmem
          · rename_i e db1 hsse
            have hq : db1.quotes = db.quotes := by
              have := sendSignatureEmail_quotes db quoteId
              rw [hsse] at this
              exact this
            rw [hq] at hmem
            exact ⟨q', hmem, rfl, Or.inl rfl⟩
          · rename_i sigId db1 hsse
            have hq : db1.quotes = db.quotes := by
              have := sendSignatureEmail_quotes db quoteId
              rw [hsse] at this
              exact this
            simp only [hq] at hmem
            rcases List.mem_map.mp hmem with ⟨q0, hq0, hg⟩
            by_cases h0 : (q0.id == quoteId) = true
            · rw [if_pos h0] at hg
              exact ⟨q0, hq0, by rw [← hg], by rw [← hg]; exact Or.inr (Or.inl rfl)⟩
            · rw [if_neg (by simpa using h0)] at hg
              subst hg
              exact ⟨q0, hq0, rfl, Or.inl rfl⟩
  | sign signatureId otpCode =>
    simp only [Signatures.runSigOp, Signatures.signQuote] at hmem
    split at hmem
    · exact ⟨q', hmem, rfl, Or.inl rfl⟩
    · rename_i s hfind
      simp only [] at hmem
      rcases List.mem_map.mp hmem with ⟨q0, hq0, hg⟩
      by_cases h0 : (q0.id == s.quoteId) = true
      · rw [if_pos h0] at hg
        exact ⟨q0, hq0, by rw [← hg], by rw [← hg]; exact Or.inr (Or.inr rfl)⟩
      · rw [if_neg (by simpa using h0)] at hg
        subst hg
        exact ⟨q0, hq0, rfl, Or.inl rfl⟩

/-- C3 counterexample: on a quote that is already SIGNED, a successful
createSignature writes the status back to SENT, so the claimed
impossibility of a SIGNED to SENT move is false as stated. -/
theorem c3_signature_linear_counterexample :
    ((Signatures.runSigOps
        { quotes := [{ id := "q1", number := 1, clientId := "c1", companyId := "co",
                       status := .SIGNED }],
          clients := [{ id := "c1", contactEmail := "a@b.c" }],
          signatures := [], mailTemplates := [], signingProvider := some "prov-1",
          mailOk := true, now := 0, nextSigId := 0 }
        [Signatures.SigOp.create "q1"]).quotes.map (fun q => q.status)
      = [Signatures.QuoteStatus.SENT]) ∧
    ([{ id := "q1", number := 1, clientId := "c1", companyId := "co",
        status := Signatures.QuoteStatus.SIGNED }].map
          (fun q : Signatures.Quote => q.status)
      = [Signatures.QuoteStatus.SIGNED]) :=
  ⟨rfl, rfl⟩

/-- C3 (amended): createSignature moves the status of the quote to SENT from
any prior status (including SIGNED), signQuote moves it to SIGNED and only
when an active signature with the matching unused unexpired OTP code exists,
and no sequence of these operations ever writes DRAFT: a quote that is DRAFT
after a sequence was DRAFT before it. -/
theorem c3_signature_transitions_amended (db : Signatures.Db) :
    (∀ quoteId sigId db',
      Signatures.createSignature db quoteId = (.ok sigId, db') →
      ∀ q ∈ db'.quotes, q.id = quoteId → q.status = .SENT) ∧
    (∀ signatureId otpCode r db',
      Signatures.signQuote db signatureId otpCode = (.ok r, db') →
      ∃ s ∈ db.signatures, s.id = signatureId ∧ s.otpCode = some otpCode ∧
        s.otpUsed = false ∧ s.isActive = true ∧
        (∃ e, s.expiresAt = some e ∧ db.now ≤ e) ∧
        ∀ q ∈ db'.quotes, q.id = s.quoteId → q.status = .SIGNED) ∧
    (∀ ops : List Signatures.SigOp, ∀ q' ∈ (Signatures.runSigOps db ops).quotes,
      q'.status = .DRAFT → ∃ q ∈ db.quotes, q.id = q'.id ∧ q.status = .DRAFT) := by
  refine ⟨?_, ?_, ?_⟩
  · intro quoteId sigId db' h
    simp only [Signatures.createSignature] at h
    split at h
    · cases h
    · split at h
      · cases h
      · split at h
        · cases h
        · split at h
          · rename_i e db1 hsse
            cases h
          · rename_i sid db1 hsse
            injection h with h1 h2
            subst h2
            intro q hq hid
            rcases List.mem_map.mp hq with ⟨q0, hq0, hg⟩
            by_cases h0 : (q0.id == quoteId) = true
            · rw [if_pos h0] at hg
              rw [← hg]
            · rw [if_neg (by simpa using h0)] at hg
              subst hg
              exact absurd (by simpa using hid) (by simpa using h0)
  · intro signatureId otpCode r db' h
    simp only [Signatures.signQuote] at h
    split at h
    · cases h
    · rename_i s hfind
      injection h with h1 h2
      subst h2
      have hmem := List.mem_of_find?_eq_some hfind
      have hmatch := List.find?_some hfind
      simp only [Signatures.signatureMatches, Bool.and_eq_true, beq_iff_eq,
        Bool.not_eq_true'] at hmatch
      obtain ⟨⟨⟨⟨hid, hotp⟩, hused⟩, hact⟩, hany⟩ := hmatch
      have hexpire : ∃ e, s.expiresAt = some e ∧ db.now ≤ e := by
        cases he : s.expiresAt with
        | none => rw [he] at hany; simp [Option.any] at hany
        | some e =>
          rw [he] at hany
          exact ⟨e, rfl, by simpa [Option.any] using hany⟩
      refine ⟨s, hmem, hid, hotp, hused, hact, hexpire, ?_⟩
      intro q hq hqid
      rcases List.mem_map.mp hq with ⟨q0, hq0, hg⟩
      by_cases h0 : (q0.id == s.quoteId) = true
      · rw [if_pos h0] at hg
        rw [← hg]
      · rw [if_neg (by simpa using h0)] at hg
        subst hg
        exact absurd (by simpa using hqid) (by simpa using h0)
  · intro ops
    induction ops generalizing db with
    | nil =>
      intro q' hmem hst
      exact ⟨q', hmem, rfl, hst⟩
    | cons op rest ih =>
      intro q' hmem hst
      have hmem' : q' ∈ (Signatures.runSigOps (Signatures.runSigOp db op) rest).quotes := hmem
      obtain ⟨q1, hq1, hid1, hst1⟩ := ih (Signatures.runSigOp db op) q' hmem' hst
      obtain ⟨q0, hq0, hid0, hst0⟩ := sigOp_status_step db op q1 hq1
      refine ⟨q0, hq0, hid0.trans hid1, ?_⟩
      rcases hst0 with h | h | h
      · rw [← h, hst1]
      · rw [hst1] at h
        cases h
      · rw [hst1] at h
        cases h

/-- Witness for C3 (amended): the SIGNED quote of the counterexample state is
SENT after the successful createSignature. -/
theorem c3_signature_transitions_amended_witness :
    Signatures.createSignature
      { quotes := [{ id := "q1", number := 1, clientId := "c1", companyId := "co",
                     status := .SIGNED }],
        clients := [{ id := "c1", contactEmail := "a@b.c" }],
        signatures := [], mailTemplates := [], signingProvider := some "prov-1",
        mailOk := true, now := 0, nextSigId := 0 } "q1"
      = (.ok "prov-1",
         { quotes := [{ id := "q1", number := 1, clientId := "c1", companyId := "co",
                        status := .SENT }],
           clients := [{ id := "c1", contactEmail := "a@b.c" }],
           signatures := [], mailTemplates := [], signingProvider := some "prov-1",
           mailOk := true, now := 0, nextSigId := 0 }) ∧
    ({ id := "q1", number := 1, clientId := "c1", companyId := "co",
       status := Signatures.QuoteStatus.SENT } : Signatures.Quote).status = .SENT :=
  ⟨rfl,
   (c3_signature_transitions_amended
     { quotes := [{ id := "q1", number := 1, clientId := "c1", companyId := "co",
                    status := .SIGNED }],
       clients := [{ id := "c1", contactEmail := "a@b.c" }],
       signatures := [], mailTemplates := [], signingProvider := some "prov-1",
       mailOk := true, now := 0, nextSigId := 0 }).1 "q1" "prov-1"
     { quotes := [{ id := "q1", number := 1, clientId := "c1", companyId := "co",
                    status := .SENT }],
       clients := [{ id := "c1", contactEmail := "a@b.c" }],
       signatures := [], mailTemplates := [], signingProvider := some "prov-1",
       mailOk := true, now := 0, nextSigId := 0 } rfl
     { id := "q1", number := 1, clientId := "c1", companyId := "co", status := .SENT }
     (by simp) rfl⟩

/-- C9: on the fallback path (no signing provider with requestSignature), a
successful sendSignatureEmail leaves the quote with exactly one active
signature, the newly created one; every other signature of the quote that
was active has been set inactive. -/
theorem c9_single_active_signature (db : Signatures.Db) (quoteId sigId : String)
    (db' : Signatures.Db)
    (hprov : db.signingProvider = none)
    (hfresh : ∀ s ∈ db.signatures, s.id ≠ Signatures.freshSigId db)
    (h : Signatures.sendSignatureEmail db quoteId = (.ok sigId, db')) :
    sigId = Signatures.freshSigId db ∧
    db'.signatures.filter (fun s => s.quoteId == quoteId && s.isActive) =
      [{ id := sigId, quoteId := quoteId, isActive := true, otpCode := none,
         otpUsed := false, expiresAt := some (db.now + Signatures.thirtyDaysMs),
         signedAt := none }] ∧
    (∀ s ∈ db'.signatures, s.quoteId = quoteId → (s.isActive = true ↔ s.id = sigId)) := by
  simp only [Signatures.sendSignatureEmail, hprov] at h
  split at h
  · cases h
  · split at h
    · cases h
    · split at h
      · cases h
      · split at h
        · cases h
        · split at h
          · -- mailOk holds: the call succeeded
            injection h with h1 h2
            injection h1 with h1
            subst h2
            have hsig : sigId = Signatures.freshSigId db := h1.symm
            subst hsig
            refine ⟨rfl, ?_, ?_⟩
            · rw [List.map_append, List.filter_append]
              have hleft : ((db.signatures.map (fun s =>
                  if s.quoteId == quoteId && s.isActive &&
                      s.id != Signatures.freshSigId db
                  then { s with isActive := false } else s)).filter
                    (fun s => s.quoteId == quoteId && s.isActive)) = [] := by
                rw [List.filter_eq_nil_iff]
                intro x hx
                rcases List.mem_map.mp hx with ⟨s0, hs0, hg⟩
                by_cases hcond : (s0.quoteId == quoteId && s0.isActive &&
                    s0.id != Signatures.freshSigId db) = true
                · rw [if_pos hcond] at hg
                  rw [← hg]
                  simp
                · rw [if_neg (by simpa using hcond)] at hg
                  subst hg
                  intro hp
                  apply hcond
                  simp only [Bool.and_eq_true] at hp ⊢
                  refine ⟨hp, ?_⟩
                  have hx0 := hfresh s0 hs0
                  simpa using hx0
              rw [hleft]
              simp [Signatures.newSignatureDefaults]
            · intro s hs hqid
              rw [List.map_append] at hs
              rcases List.mem_append.mp hs with hmem | hmem
              · rcases List.mem_map.mp hmem with ⟨s0, hs0, hg⟩
                have hid0 : s.id = s0.id := by
                  by_cases hcond : (s0.quoteId == quoteId && s0.isActive &&
                      s0.id != Signatures.freshSigId db) = true
                  · rw [if_pos hcond] at hg
                    rw [← hg]
                  · rw [if_neg (by simpa using hcond)] at hg
                    rw [← hg]
                have hne : s.id ≠ Signatures.freshSigId db := by
                  rw [hid0]
                  exact hfresh s0 hs0
                constructor
                · intro hact
                  exfalso
                  by_cases hcond : (s0.quoteId == quoteId && s0.isActive &&
                      s0.id != Signatures.freshSigId db) = true
                  · rw [if_pos hcond] at hg
                    rw [← hg] at hact
                    cases hact
                  · rw [if_neg (by simpa using hcond)] at hg
                    subst hg
                    apply hcond
                    simp only [Bool.and_eq_true]
                    refine ⟨⟨by simpa using hqid, hact⟩, by simpa using hne⟩
                · intro hid
                  exact absurd hid hne
              · rcases List.mem_map.mp hmem with ⟨s0, hs0, hg⟩
                rcases List.mem_singleton.mp hs0 with rfl
                rw [if_neg (by simp [Signatures.newSignatureDefaults])] at hg
                rw [← hg]
                simp [Signatures.newSignatureDefaults]
          · cases h

/-- Witness for C9: a concrete fallback run leaves exactly the new signature
active for the quote. -/
theorem c9_single_active_signature_witness :
    ({ quotes := [{ id := "q1", number := 1, clientId := "c1", companyId := "co",
                    status := .DRAFT }],
       clients := [{ id := "c1", contactEmail := "a@b.c" }],
       signatures := [{ id := "sig-" ++ toString 0, quoteId := "q1", isActive := true,
                        otpCode := none, otpUsed := false,
                        expiresAt := some (0 + Signatures.thirtyDaysMs),
                        signedAt := none }],
       mailTemplates := [{ mtype := "SIGNATURE_REQUEST", companyId := "co",
                           subject := "s", body := "b" }],
       signingProvider := none, mailOk := true, now := 0,
       nextSigId := 1 } : Signatures.Db).signatures.filter
        (fun s => s.quoteId == "q1" && s.isActive) =
      [{ id := "sig-" ++ toString 0, quoteId := "q1", isActive := true,
         otpCode := none, otpUsed := false,
         expiresAt := some (0 + Signatures.thirtyDaysMs), signedAt := none }] :=
  (c9_single_active_signature
    { quotes := [{ id := "q1", number := 1, clientId := "c1", companyId := "co",
                   status := .DRAFT }],
      clients := [{ id := "c1", contactEmail := "a@b.c" }],
      signatures := [],
      mailTemplates := [{ mtype := "SIGNATURE_REQUEST", companyId := "co",
                          subject := "s", body := "b" }],
      signingProvider := none, mailOk := true, now := 0, nextSigId := 0 }
    "q1" ("sig-" ++ toString 0)
    { quotes := [{ id := "q1", number := 1, clientId := "c1", companyId := "co",
                   status := .DRAFT }],
      clients := [{ id := "c1", contactEmail := "a@b.c" }],
      signatures := [{ id := "sig-" ++ toString 0, quoteId := "q1", isActive := true,
                       otpCode := none, otpUsed := false,
                       expiresAt := some (0 + Signatures.thirtyDaysMs),
                       signedAt := none }],
      mailTemplates := [{ mtype := "SIGNATURE_REQUEST", companyId := "co",
                          subject := "s", body := "b" }],
      signingProvider := none, mailOk := true, now := 0, nextSigId := 1 }
    rfl (by simp) rfl).2.1

/-- C6: getDriver returns the first registered driver whose supports(type)
holds, a GenericDriver when none does, and send hence attempts delivery for
every webhook of its input list, returning exactly one result per webhook. -/
theorem c6_webhook_driver_total (drivers : List Webhooks.WebhookDriver)
    (t : Webhooks.WebhookType) :
    ((∃ (i : Nat) (d : Webhooks.WebhookDriver), drivers[i]? = some d ∧
        Webhooks.getDriver drivers t = d ∧
        d.supports t = true ∧
        ∀ (j : Nat) (d' : Webhooks.WebhookDriver),
          j < i → drivers[j]? = some d' → d'.supports t = false) ∨
      (Webhooks.getDriver drivers t = Webhooks.genericDriver ∧
        ∀ d ∈ drivers, d.supports t = false)) ∧
    ∀ (webhooks : List Webhooks.Webhook) (event : String),
      (Webhooks.sendWebhooks drivers webhooks event).length = webhooks.length ∧
      ∀ (k : Nat) w, webhooks[k]? = some w →
        (Webhooks.sendWebhooks drivers webhooks event)[k]? =
          some { driverName := (Webhooks.getDriver drivers w.wtype).name,
                 url := w.url, event := event, secret := w.secret } := by
  constructor
  · induction drivers with
    | nil =>
      right
      exact ⟨rfl, by simp⟩
    | cons d ds ih =>
      by_cases hd : d.supports t = true
      · left
        refine ⟨0, d, by simp, ?_, hd, fun j d' hj _ => absurd hj (by omega)⟩
        simp [Webhooks.getDriver, List.find?_cons, hd]
      · have hstep : Webhooks.getDriver (d :: ds) t = Webhooks.getDriver ds t := by
          simp only [Bool.not_eq_true] at hd
          simp [Webhooks.getDriver, List.find?_cons, hd]
        rcases ih with ⟨i, d0, hget, heq, hsup, hfirst⟩ | ⟨heq, hall⟩
        · left
          refine ⟨i + 1, d0, by simpa using hget, hstep.trans heq, hsup, ?_⟩
          intro j d' hj hj'
          cases j with
          | zero =>
            simp at hj'
            simpa [hj'] using hd
          | succ j' =>
            exact hfirst j' d' (by omega) (by simpa using hj')
        · right
          refine ⟨hstep.trans heq, ?_⟩
          intro d' hd'
          rcases List.mem_cons.mp hd' with rfl | hmem
          · simpa using hd
          · exact hall d' hmem
  · intro webhooks event
    constructor
    · simp [Webhooks.sendWebhooks]
    · intro k w hk
      simp [Webhooks.sendWebhooks, List.getElem?_map, hk]

/-- Witness for C6: a webhook list with one entry whose type no registered
driver supports still produces exactly one send, through the fallback. -/
theorem c6_webhook_driver_total_witness :
    (Webhooks.sendWebhooks [⟨"SlackDriver", fun ty => ty == "SLACK"⟩]
        [{ url := "https://example.invalid/hook", wtype := "DISCORD", secret := none }]
        "INVOICE_CREATED")[0]? =
      some { driverName :=
               (Webhooks.getDriver [⟨"SlackDriver", fun ty => ty == "SLACK"⟩] "DISCORD").name,
             url := "https://example.invalid/hook", event := "INVOICE_CREATED",
             secret := none } :=
  ((c6_webhook_driver_total [⟨"SlackDriver", fun ty => ty == "SLACK"⟩] "DISCORD").2
    [{ url := "https://example.invalid/hook", wtype := "DISCORD", secret := none }]
    "INVOICE_CREATED").2 0
    { url := "https://example.invalid/hook", wtype := "DISCORD", secret := none } rfl

/-! ## C4 support: the per-currency month accumulator -/

/-- The twelve zero entries. -/
theorem zeroMonths_length : Stats.zeroMonths.length = 12 := by
  simp [Stats.zeroMonths]

theorem zeroMonths_getD (i : Nat) (h : i < 12) :
    Stats.zeroMonths.getD i default =
      { month := i + 1, invoiced := 0, revenue := 0, deposits := 0 } := by
  simp [Stats.zeroMonths, List.getD_eq_getElem?_getD, List.getElem?_map,
    List.getElem?_range, h]

/-- The per-key update of addAt commutes with lookup, because it preserves
keys. -/
theorem find?_key_update (m : Stats.MonthsMap) (c c' : String)
    (upd : List Stats.MonthStat → List Stats.MonthStat) :
    (m.map (fun kv => if kv.1 == c then (kv.1, upd kv.2) else kv)).find?
        (fun kv => kv.1 == c')
      = (m.find? (fun kv => kv.1 == c')).map
          (fun kv => if kv.1 == c then (kv.1, upd kv.2) else kv) := by
  rw [List.find?_map]
  have hp : ((fun kv : String × List Stats.MonthStat => kv.1 == c') ∘
      (fun kv => if kv.1 == c then (kv.1, upd kv.2) else kv)) =
        (fun kv : String × List Stats.MonthStat => kv.1 == c') := by
    funext kv
    by_cases hkv : (kv.1 == c) = true
    · simp [Function.comp, hkv]
    · simp [Function.comp, hkv]
  rw [hp]

/-- After ensureCurrency the key is present and holds monthsOf of the input. -/
theorem ensure_find?_self (m : Stats.MonthsMap) (c : String) :
    (Stats.ensureCurrency m c).find? (fun kv => kv.1 == c)
      = some (c, Stats.monthsOf m c) := by
  unfold Stats.ensureCurrency
  split
  · rename_i hany
    cases hf : m.find? (fun kv => kv.1 == c) with
    | none =>
      rw [List.find?_eq_none] at hf
      rcases List.any_eq_true.mp hany with ⟨kv, hkv, hc⟩
      exact (hf kv hkv hc).elim
    | some kv =>
      have h1 : kv.1 = c := by simpa using List.find?_some hf
      unfold Stats.monthsOf
      rw [hf]
      obtain ⟨k1, k2⟩ := kv
      simp only at h1
      subst h1
      rfl
  · rename_i hany
    have hnone : m.find? (fun kv => kv.1 == c) = none := by
      rw [List.find?_eq_none]
      intro kv hkv hc
      exact hany (List.any_eq_true.mpr ⟨kv, hkv, hc⟩)
    rw [List.find?_append, hnone]
    unfold Stats.monthsOf
    rw [hnone]
    simp [List.find?_cons]

/-- ensureCurrency does not change the months held for any key. -/
theorem monthsOf_ensure (m : Stats.MonthsMap) (c c' : String) :
    Stats.monthsOf (Stats.ensureCurrency m c) c' = Stats.monthsOf m c' := by
  by_cases h : c' = c
  · subst h
    unfold Stats.monthsOf
    rw [ensure_find?_self]
    simp [Stats.monthsOf]
  · unfold Stats.ensureCurrency Stats.monthsOf
    split
    · rfl
    · rw [List.find?_append]
      have hcc : c ≠ c' := Ne.symm h
      have hsing : List.find? (fun kv => kv.1 == c')
          [(c, Stats.zeroMonths)] = none := by
        simp [List.find?_cons, hcc]
      rw [hsing]
      cases m.find? (fun kv => kv.1 == c') <;> simp

/-- addAt rewrites exactly the targeted month of the targeted currency. -/
theorem monthsOf_addAt_self (m : Stats.MonthsMap) (c : String) (i : Nat)
    (f : Stats.MonthStat → Stats.MonthStat) :
    Stats.monthsOf (Stats.addAt m c i f) c
      = (Stats.monthsOf m c).mapIdx (fun j s => if j == i then f s else s) := by
  unfold Stats.addAt Stats.monthsOf
  rw [find?_key_update, ensure_find?_self]
  simp [Stats.monthsOf]

theorem monthsOf_addAt_other (m : Stats.MonthsMap) (c c' : String) (i : Nat)
    (f : Stats.MonthStat → Stats.MonthStat) (h : c' ≠ c) :
    Stats.monthsOf (Stats.addAt m c i f) c' = Stats.monthsOf m c' := by
  have he := monthsOf_ensure m c c'
  unfold Stats.addAt Stats.monthsOf
  rw [find?_key_update]
  cases hf : (Stats.ensureCurrency m c).find? (fun kv => kv.1 == c') with
  | none =>
    have h0 : Stats.monthsOf (Stats.ensureCurrency m c) c' = Stats.zeroMonths := by
      unfold Stats.monthsOf
      rw [hf]
      rfl
    rw [h0] at he
    unfold Stats.monthsOf at he
    simp [← he]
  | some kv =>
    have h1 : kv.1 = c' := by simpa using List.find?_some hf
    have hkv : (if kv.1 == c then (kv.1, kv.2.mapIdx (fun j s => if j == i then f s else s)) else kv) = kv := by
      rw [if_neg]
      simp only [h1]
      simpa using Ne.symm (Ne.symm h)
    have h0 : Stats.monthsOf (Stats.ensureCurrency m c) c' = kv.2 := by
      unfold Stats.monthsOf
      rw [hf]
      rfl
    rw [h0] at he
    unfold Stats.monthsOf at he
    simp [← he]
    rw [if_neg (show ¬ kv.1 = c by rw [h1]; exact h)]

/-- The months list of any key of any map coming out of addAt keeps length 12
when it had length 12 for every key. -/
theorem monthsOf_length_addAt (m : Stats.MonthsMap) (c c' : String) (i : Nat)
    (f : Stats.MonthStat → Stats.MonthStat)
    (hlen : (Stats.monthsOf m c').length = 12) :
    (Stats.monthsOf (Stats.addAt m c i f) c').length = 12 := by
  by_cases h : c' = c
  · subst h
    rw [monthsOf_addAt_self]
    simpa using hlen
  · rw [monthsOf_addAt_other m c c' i f h]
    exact hlen

/-- Entry-level description of addAt. -/
theorem entry_addAt (m : Stats.MonthsMap) (c : String) (i : Nat)
    (f : Stats.MonthStat → Stats.MonthStat) (c' : String) (j : Nat)
    (hj : j < 12) (hlen : (Stats.monthsOf m c').length = 12) :
    (Stats.monthsOf (Stats.addAt m c i f) c').getD j default
      = if c' = c ∧ j = i then f ((Stats.monthsOf m c').getD j default)
        else (Stats.monthsOf m c').getD j default := by
  by_cases h : c' = c
  · subst h
    rw [monthsOf_addAt_self]
    have hjl : j < (Stats.monthsOf m c').length := by rw [hlen]; exact hj
    rw [List.getD_eq_getElem?_getD, List.getElem?_mapIdx,
      List.getElem?_eq_getElem hjl]
    by_cases hji : j = i
    · subst hji
      simp [List.getD_eq_getElem?_getD, List.getElem?_eq_getElem hjl]
    · have : (j == i) = false := by simpa using hji
      simp [this, hji, List.getD_eq_getElem?_getD, List.getElem?_eq_getElem hjl]
  · rw [monthsOf_addAt_other m c c' i f h]
    rw [if_neg]
    intro hcon
    exact h hcon.1

/-- Lengths are preserved along a whole addAt fold. -/
theorem foldAdd_length {α : Type} (key : α → String) (idx : α → Nat)
    (F : α → Stats.MonthStat → Stats.MonthStat) (L : List α) (acc : Stats.MonthsMap)
    (hlen : ∀ c, (Stats.monthsOf acc c).length = 12) :
    ∀ c, (Stats.monthsOf
        (L.foldl (fun b a => Stats.addAt b (key a) (idx a) (F a)) acc) c).length = 12 := by
  induction L generalizing acc with
  | nil => exact hlen
  | cons a t ih =>
    intro c
    exact ih (Stats.addAt acc (key a) (idx a) (F a))
      (fun c' => monthsOf_length_addAt acc (key a) c' (idx a) (F a) (hlen c')) c

/-- Value of one month of one currency after an addAt fold: the fold of the
amounts of the matching elements over the starting value.  Taking amt a b = b
this is also the frame property for the fields a loop does not touch. -/
theorem foldAdd_entry {α β : Type} (key : α → String) (idx : α → Nat)
    (F : α → Stats.MonthStat → Stats.MonthStat)
    (proj : Stats.MonthStat → β) (amt : α → β → β)
    (hF : ∀ a s, proj (F a s) = amt a (proj s))
    (L : List α) (acc : Stats.MonthsMap)
    (hidx : ∀ a ∈ L, idx a < 12)
    (hlen : ∀ c, (Stats.monthsOf acc c).length = 12)
    (c : String) (i : Nat) (hi : i < 12) :
    proj ((Stats.monthsOf
        (L.foldl (fun b a => Stats.addAt b (key a) (idx a) (F a)) acc) c).getD i default)
      = (L.filter (fun a => key a == c && idx a == i)).foldl (fun b a => amt a b)
          (proj ((Stats.monthsOf acc c).getD i default)) := by
  induction L generalizing acc with
  | nil => rfl
  | cons a t ih =>
    rw [List.foldl_cons, List.filter_cons]
    have hlen' : ∀ c', (Stats.monthsOf (Stats.addAt acc (key a) (idx a) (F a)) c').length = 12 :=
      fun c' => monthsOf_length_addAt acc (key a) c' (idx a) (F a) (hlen c')
    have hidx' : ∀ x ∈ t, idx x < 12 := fun x hx => hidx x (List.mem_cons_of_mem a hx)
    have hstep := entry_addAt acc (key a) (idx a) (F a) c i hi (hlen c)
    by_cases hcond : (key a == c && idx a == i) = true
    · rw [if_pos hcond, List.foldl_cons]
      rw [ih (Stats.addAt acc (key a) (idx a) (F a)) hidx' hlen']
      have h1 : key a = c := by
        have := (Bool.and_eq_true _ _).mp hcond
        simpa using this.1
      have h2 : idx a = i := by
        have := (Bool.and_eq_true _ _).mp hcond
        simpa using this.2
      rw [hstep, if_pos ⟨h1.symm, h2.symm⟩, hF]
    · rw [if_neg (by simpa using hcond)]
      rw [ih (Stats.addAt acc (key a) (idx a) (F a)) hidx' hlen']
      rw [hstep, if_neg]
      intro hcon
      apply hcond
      rw [Bool.and_eq_true]
      exact ⟨by simpa using hcon.1.symm, by simpa using hcon.2.symm⟩

/-- addAt keeps exactly the keys ensureCurrency produced. -/
theorem keys_addAt (m : Stats.MonthsMap) (c : String) (i : Nat)
    (f : Stats.MonthStat → Stats.MonthStat) :
    (Stats.addAt m c i f).map Prod.fst = (Stats.ensureCurrency m c).map Prod.fst := by
  unfold Stats.addAt
  rw [List.map_map]
  congr 1
  funext kv
  by_cases h : (kv.1 == c) = true <;> simp [Function.comp, h]

theorem mem_keys_ensure_self (m : Stats.MonthsMap) (c : String) :
    c ∈ (Stats.ensureCurrency m c).map Prod.fst := by
  have h := ensure_find?_self m c
  have := List.mem_map_of_mem Prod.fst (List.mem_of_find?_eq_some h)
  simpa using this

theorem keys_ensure_mono (m : Stats.MonthsMap) (c c' : String)
    (h : c' ∈ m.map Prod.fst) : c' ∈ (Stats.ensureCurrency m c).map Prod.fst := by
  unfold Stats.ensureCurrency
  split
  · exact h
  · rw [List.map_append]
    exact List.mem_append.mpr (Or.inl h)

/-- Keys after a fold: everything already present plus the key of every
processed element. -/
theorem foldAdd_keys {α : Type} (key : α → String) (idx : α → Nat)
    (F : α → Stats.MonthStat → Stats.MonthStat) (L : List α) (acc : Stats.MonthsMap)
    (c : String) (h : c ∈ acc.map Prod.fst ∨ ∃ a ∈ L, key a = c) :
    c ∈ (L.foldl (fun b a => Stats.addAt b (key a) (idx a) (F a)) acc).map Prod.fst := by
  induction L generalizing acc with
  | nil =>
    rcases h with h | ⟨a, ha, _⟩
    · exact h
    · cases ha
  | cons a t ih =>
    rw [List.foldl_cons]
    rcases h with h | ⟨a0, ha0, hkey⟩
    · exact ih (Stats.addAt acc (key a) (idx a) (F a))
        (Or.inl (by rw [keys_addAt]; exact keys_ensure_mono acc (key a) c h))
    · rcases List.mem_cons.mp ha0 with rfl | hmem
      · exact ih (Stats.addAt acc (key a0) (idx a0) (F a0))
          (Or.inl (by rw [keys_addAt, ← hkey]; exact mem_keys_ensure_self acc (key a0)))
      · exact ih (Stats.addAt acc (key a) (idx a) (F a)) (Or.inr ⟨a0, hmem, hkey⟩)

theorem keysNodup_ensure (m : Stats.MonthsMap) (c : String)
    (h : Stats.KeysNodup m) : Stats.KeysNodup (Stats.ensureCurrency m c) := by
  unfold Stats.ensureCurrency Stats.KeysNodup
  split
  · exact h
  · rename_i hany
    rw [List.map_append]
    refine List.Nodup.append h (by simp) ?_
    intro x hx hx'
    simp only [List.map_cons, List.map_nil, List.mem_singleton] at hx'
    subst hx'
    rcases List.mem_map.mp hx with ⟨kv, hkv, hfst⟩
    exact hany (List.any_eq_true.mpr ⟨kv, hkv, by simp [hfst]⟩)

theorem keysNodup_addAt (m : Stats.MonthsMap) (c : String) (i : Nat)
    (f : Stats.MonthStat → Stats.MonthStat)
    (h : Stats.KeysNodup m) : Stats.KeysNodup (Stats.addAt m c i f) := by
  unfold Stats.KeysNodup
  rw [keys_addAt]
  exact keysNodup_ensure m c h

theorem foldAdd_keysNodup {α : Type} (key : α → String) (idx : α → Nat)
    (F : α → Stats.MonthStat → Stats.MonthStat) (L : List α) (acc : Stats.MonthsMap)
    (h : Stats.KeysNodup acc) :
    Stats.KeysNodup (L.foldl (fun b a => Stats.addAt b (key a) (idx a) (F a)) acc) := by
  induction L generalizing acc with
  | nil => exact h
  | cons a t ih =>
    exact ih (Stats.addAt acc (key a) (idx a) (F a)) (keysNodup_addAt acc (key a) (idx a) (F a) h)

/-- A guarded fold is the fold over the filtered list. -/
theorem foldl_guard {α β : Type} (g : α → Bool) (step : β → α → β) (L : List α) (b : β) :
    L.foldl (fun b a => if g a then step b a else b) b = (L.filter g).foldl step b := by
  induction L generalizing b with
  | nil => rfl
  | cons a t ih =>
    rw [List.foldl_cons, List.filter_cons]
    by_cases h : g a = true
    · rw [if_pos h, if_pos h, List.foldl_cons, ih]
    · rw [if_neg h, if_neg h, ih]

/-- Folding over a filterMap is folding the match over the base list. -/
theorem foldl_filterMap {α γ β : Type} (g : α → Option γ) (step : β → γ → β)
    (L : List α) (b : β) :
    (L.filterMap g).foldl step b
      = L.foldl (fun b a => match g a with | some x => step b x | none => b) b := by
  induction L generalizing b with
  | nil => rfl
  | cons a t ih =>
    cases hg : g a with
    | none => simp [List.filterMap_cons, hg, ih]
    | some x => simp [List.filterMap_cons, hg, ih, List.foldl_cons]

/-- Two folds with pointwise equal step functions agree. -/
theorem foldl_congr_fun {α β : Type} (f g : β → α → β) (L : List α) (b : β)
    (h : ∀ b a, f b a = g b a) : L.foldl f b = L.foldl g b := by
  induction L generalizing b with
  | nil => rfl
  | cons a t ih => rw [List.foldl_cons, List.foldl_cons, h, ih]

theorem foldl_keep {α β : Type} (L : List α) (b : β) :
    L.foldl (fun b _ => b) b = b := by
  induction L generalizing b with
  | nil => rfl
  | cons a t ih => rw [List.foldl_cons, ih]

theorem foldl_add_map {α : Type} (amt : α → ℚ) (L : List α) (v : ℚ) :
    L.foldl (fun b a => b + amt a) v = v + (L.map amt).sum := by
  induction L generalizing v with
  | nil => simp
  | cons a t ih =>
    rw [List.foldl_cons, List.map_cons, List.sum_cons, ih]
    ring

/-- The lower date bound of the year filter. -/
theorem leb_startOfYear (y : Int) (d : Stats.Date) :
    Stats.Date.leb (Stats.startOfYear y) d = decide (y ≤ d.year) := by
  unfold Stats.Date.leb Stats.startOfYear
  simp only
  split_ifs with h1 h2 h3 h4 <;> simp_all <;> omega

/-- The upper date bound of the year filter, for a well-formed date. -/
theorem leb_endOfYear (y : Int) (d : Stats.Date) (hm : d.month < 12)
    (hms : d.ms ≤ Stats.decEndMs) :
    Stats.Date.leb d (Stats.endOfYear y) = decide (d.year ≤ y) := by
  unfold Stats.Date.leb Stats.endOfYear
  simp only
  split_ifs with h1 h2 h3 h4 <;> simp_all <;> omega

/-- For a well-formed date the year range filter of getMonthlyStats is the
year equality of the claim. -/
theorem date_range_eq_year (d : Stats.Date) (hwf : d.wf) (y : Int) :
    (Stats.Date.leb (Stats.startOfYear y) d && Stats.Date.leb d (Stats.endOfYear y))
      = (d.year == y) := by
  obtain ⟨hm, hms⟩ := hwf
  rw [leb_startOfYear y d, leb_endOfYear y d hm hms]
  by_cases h : d.year = y
  · simp [h]
  · have hne : (d.year == y) = false := by simpa using h
    rw [hne]
    rcases lt_or_gt_of_ne h with hlt | hgt
    · have : decide (d.year ≤ y) = true := by simpa using le_of_lt hlt
      have h2 : decide (y ≤ d.year) = false := by simpa using not_le.mpr hlt
      rw [h2]
      rfl
    · have h2 : decide (d.year ≤ y) = false := by simpa using not_le.mpr hgt
      rw [h2]
      simp

/-- Sum over the paid pairs filtered by a predicate on the pair equals the
sum over the invoices whose first-paid date satisfies it. -/
theorem paid_sum_filterMap {α : Type} (fp : α → Option Stats.Date) (v : α → ℚ)
    (q : α → Stats.Date → Bool) (L : List α) :
    (((L.filterMap (fun x => (fp x).map (fun d => (x, d)))).filter
        (fun p => q p.1 p.2)).map (fun p => v p.1)).sum
      = ((L.filter (fun x => (fp x).any (fun d => q x d))).map v).sum := by
  induction L with
  | nil => rfl
  | cons a t ih =>
    cases hfp : fp a with
    | none => simp [List.filterMap_cons, hfp, List.filter_cons, Option.any, ih]
    | some d =>
      by_cases hq : q a d = true
      · simp [List.filterMap_cons, hfp, List.filter_cons, hq, Option.any, ih]
      · simp [List.filterMap_cons, hfp, List.filter_cons, hq, Option.any, ih]

/-- An invoice without receipts has no sorted receipts. -/
theorem sortedReceiptsOf_nil (db : Stats.Db) (invId : String)
    (h : db.receipts.any (fun r => r.invoiceId == invId) = false) :
    Stats.sortedReceiptsOf db invId = [] := by
  unfold Stats.sortedReceiptsOf
  have hf : db.receipts.filter (fun r => r.invoiceId == invId) = [] := by
    rw [List.filter_eq_nil_iff]
    intro r hr hb
    have : db.receipts.any (fun r => r.invoiceId == invId) = true :=
      List.any_eq_true.mpr ⟨r, hr, hb⟩
    rw [h] at this
    cases this
  rw [hf]
  exact List.mergeSort_nil

/-- With pairwise distinct keys, membership in the rounded output pins the
months list down to monthsOf. -/
theorem mem_map_entry (m : Stats.MonthsMap) (hnd : Stats.KeysNodup m) (c : String)
    (months : List Stats.MonthStat) (g : Stats.MonthStat → Stats.MonthStat)
    (hmem : (c, months) ∈ m.map (fun kv => (kv.1, kv.2.map g))) :
    months = (Stats.monthsOf m c).map g := by
  rcases List.mem_map.mp hmem with ⟨kv, hkv, heq⟩
  have h1 : kv.1 = c := congrArg Prod.fst heq
  have h2 : kv.2.map g = months := congrArg Prod.snd heq
  have hfind : m.find? (fun y => y.1 == kv.1) = some kv :=
    nodup_key_find? Prod.fst m hnd kv hkv
  rw [h1] at hfind
  unfold Stats.monthsOf
  rw [hfind]
  simpa using h2.symm

/-- Entry value after folding any loop body that is addAt under a guard.
With amt a b = b this is the frame property for untouched fields. -/
theorem fold_entry_general {α β : Type} (step : Stats.MonthsMap → α → Stats.MonthsMap)
    (sel : α → Bool) (key : α → String) (idx : α → Nat)
    (F : α → Stats.MonthStat → Stats.MonthStat)
    (hstep : ∀ b a, step b a = if sel a then Stats.addAt b (key a) (idx a) (F a) else b)
    (proj : Stats.MonthStat → β) (amt : α → β → β)
    (hF : ∀ a s, proj (F a s) = amt a (proj s))
    (L : List α) (acc : Stats.MonthsMap)
    (hidx : ∀ a ∈ L, sel a = true → idx a < 12)
    (hlen : ∀ c, (Stats.monthsOf acc c).length = 12)
    (c : String) (i : Nat) (hi : i < 12) :
    proj ((Stats.monthsOf (L.foldl step acc) c).getD i default)
      = (L.filter (fun a => sel a && (key a == c && idx a == i))).foldl
          (fun b a => amt a b) (proj ((Stats.monthsOf acc c).getD i default)) := by
  induction L generalizing acc with
  | nil => rfl
  | cons a t ih =>
    rw [List.foldl_cons, hstep, List.filter_cons]
    have hidx' : ∀ x ∈ t, sel x = true → idx x < 12 :=
      fun x hx => hidx x (List.mem_cons_of_mem a hx)
    by_cases hsel : sel a = true
    · rw [if_pos hsel]
      have hlen' : ∀ c', (Stats.monthsOf (Stats.addAt acc (key a) (idx a) (F a)) c').length = 12 :=
        fun c' => monthsOf_length_addAt acc (key a) c' (idx a) (F a) (hlen c')
      have hstepent := entry_addAt acc (key a) (idx a) (F a) c i hi (hlen c)
      by_cases hmatch : (key a == c && idx a == i) = true
      · rw [show (sel a && (key a == c && idx a == i)) = true by rw [hsel, hmatch]; rfl]
        rw [if_pos rfl]
        rw [List.foldl_cons, ih (Stats.addAt acc (key a) (idx a) (F a)) hidx' hlen']
        have h1 : key a = c := by
          have := (Bool.and_eq_true _ _).mp hmatch
          simpa using this.1
        have h2 : idx a = i := by
          have := (Bool.and_eq_true _ _).mp hmatch
          simpa using this.2
        rw [hstepent, if_pos ⟨h1.symm, h2.symm⟩, hF]
      · rw [show (sel a && (key a == c && idx a == i)) = false by
          rw [hsel, Bool.true_and]; simpa using hmatch]
        rw [if_neg (by simp)]
        rw [ih (Stats.addAt acc (key a) (idx a) (F a)) hidx' hlen']
        rw [hstepent, if_neg]
        intro hcon
        apply hmatch
        rw [Bool.and_eq_true]
        exact ⟨by simpa using hcon.1.symm, by simpa using hcon.2.symm⟩
    · rw [if_neg hsel]
      have hsf : sel a = false := by simpa using hsel
      rw [show (sel a && (key a == c && idx a == i)) = false by rw [hsf]; rfl]
      rw [if_neg (by simp)]
      exact ih acc hidx' hlen

/-- Lengths stay 12 along any guarded addAt fold. -/
theorem fold_length_general {α : Type} (step : Stats.MonthsMap → α → Stats.MonthsMap)
    (sel : α → Bool) (key : α → String) (idx : α → Nat)
    (F : α → Stats.MonthStat → Stats.MonthStat)
    (hstep : ∀ b a, step b a = if sel a then Stats.addAt b (key a) (idx a) (F a) else b)
    (L : List α) (acc : Stats.MonthsMap)
    (hlen : ∀ c, (Stats.monthsOf acc c).length = 12) :
    ∀ c, (Stats.monthsOf (L.foldl step acc) c).length = 12 := by
  induction L generalizing acc with
  | nil => exact hlen
  | cons a t ih =>
    rw [List.foldl_cons, hstep]
    by_cases hsel : sel a = true
    · rw [if_pos hsel]
      exact ih (Stats.addAt acc (key a) (idx a) (F a))
        (fun c' => monthsOf_length_addAt acc (key a) c' (idx a) (F a) (hlen c'))
    · rw [if_neg hsel]
      exact ih acc hlen

/-- Key distinctness survives any guarded addAt fold. -/
theorem fold_nodup_general {α : Type} (step : Stats.MonthsMap → α → Stats.MonthsMap)
    (sel : α → Bool) (key : α → String) (idx : α → Nat)
    (F : α → Stats.MonthStat → Stats.MonthStat)
    (hstep : ∀ b a, step b a = if sel a then Stats.addAt b (key a) (idx a) (F a) else b)
    (L : List α) (acc : Stats.MonthsMap)
    (hnd : Stats.KeysNodup acc) :
    Stats.KeysNodup (L.foldl step acc) := by
  induction L generalizing acc with
  | nil => exact hnd
  | cons a t ih =>
    rw [List.foldl_cons, hstep]
    by_cases hsel : sel a = true
    · rw [if_pos hsel]
      exact ih (Stats.addAt acc (key a) (idx a) (F a))
        (keysNodup_addAt acc (key a) (idx a) (F a) hnd)
    · rw [if_neg hsel]
      exact ih acc hnd

/-- Keys after any guarded addAt fold contain the previous keys and the key
of every selected element. -/
theorem fold_keys_general {α : Type} (step : Stats.MonthsMap → α → Stats.MonthsMap)
    (sel : α → Bool) (key : α → String) (idx : α → Nat)
    (F : α → Stats.MonthStat → Stats.MonthStat)
    (hstep : ∀ b a, step b a = if sel a then Stats.addAt b (key a) (idx a) (F a) else b)
    (L : List α) (acc : Stats.MonthsMap) (c : String)
    (h : c ∈ acc.map Prod.fst ∨ ∃ a ∈ L, sel a = true ∧ key a = c) :
    c ∈ (L.foldl step acc).map Prod.fst := by
  induction L generalizing acc with
  | nil =>
    rcases h with h | ⟨a, ha, _⟩
    · exact h
    · cases ha
  | cons a t ih =>
    rw [List.foldl_cons, hstep]
    rcases h with h | ⟨a0, ha0, hsel0, hkey⟩
    · by_cases hsel : sel a = true
      · rw [if_pos hsel]
        exact ih (Stats.addAt acc (key a) (idx a) (F a))
          (Or.inl (by rw [keys_addAt]; exact keys_ensure_mono acc (key a) c h))
      · rw [if_neg hsel]
        exact ih acc (Or.inl h)
    · rcases List.mem_cons.mp ha0 with rfl | hmem
      · rw [if_pos hsel0]
        exact ih (Stats.addAt acc (key a0) (idx a0) (F a0))
          (Or.inl (by rw [keys_addAt, ← hkey]; exact mem_keys_ensure_self acc (key a0)))
      · by_cases hsel : sel a = true
        · rw [if_pos hsel]
          exact ih (Stats.addAt acc (key a) (idx a) (F a)) (Or.inr ⟨a0, hmem, hsel0, hkey⟩)
        · rw [if_neg hsel]
          exact ih acc (Or.inr ⟨a0, hmem, hsel0, hkey⟩)

/-- The completing receipt date returned by the cumulative scan is the
createdAt of one of the scanned receipts. -/
theorem firstPaidDateAux_mem (rs : List Stats.SReceipt) :
    ∀ ttc cum d, Stats.firstPaidDateAux ttc cum rs = some d →
      ∃ r ∈ rs, r.createdAt = d := by
  induction rs with
  | nil => intro ttc cum d h; cases h
  | cons r t ih =>
    intro ttc cum d h
    unfold Stats.firstPaidDateAux at h
    split at h
    · exact ⟨r, List.mem_cons_self r t, Option.some.inj h⟩
    · rcases ih ttc (cum + r.totalPaid) d h with ⟨r', hr', he⟩
      exact ⟨r', List.mem_cons_of_mem r hr', he⟩

/-- Every pair of paidInvoicesOf carries a well-formed receipt date. -/
theorem paidInvoicesOf_wf (db : Stats.Db)
    (hwfR : ∀ r ∈ db.receipts, r.createdAt.wf) :
    ∀ p ∈ Stats.paidInvoicesOf db, p.2.wf := by
  intro p hp
  rcases List.mem_filterMap.mp hp with ⟨inv, _hinv, hfp⟩
  cases hfp' : Stats.firstPaidDate inv.totalTTC (Stats.sortedReceiptsOf db inv.id) with
  | none => rw [hfp'] at hfp; cases hfp
  | some d =>
    rw [hfp'] at hfp
    have hpd : p.2 = d := by
      have := Option.some.inj hfp
      rw [← this]
    rcases firstPaidDateAux_mem _ _ _ _ hfp' with ⟨r, hr, he⟩
    have hrdb : r ∈ db.receipts := by
      have := List.mem_mergeSort.mp hr
      exact List.mem_of_mem_filter this
    rw [hpd, ← he]
    exact hwfR r hrdb

/-- The body of revenueLoop as a guarded addAt, keyed by the currency of the
receipt invoice. -/
theorem revenueLoop_hstep (db : Stats.Db) :
    ∀ (b : Stats.MonthsMap) (a : Stats.SReceipt),
      (fun acc r =>
        match db.invoices.find? (fun i => i.id == r.invoiceId) with
        | none => acc
        | some inv =>
          if inv.currency.isEmpty then acc
          else Stats.addAt acc inv.currency r.createdAt.month
            (fun m => { m with revenue := m.revenue + Stats.receiptNet r inv.items })) b a
      = if (match db.invoices.find? (fun i => i.id == a.invoiceId) with
            | some inv => !inv.currency.isEmpty
            | none => false) then
          Stats.addAt b (((db.invoices.find? (fun i => i.id == a.invoiceId)).map
              (fun i => i.currency)).getD "") a.createdAt.month
            (fun m => { m with revenue := m.revenue +
              ((db.invoices.find? (fun i => i.id == a.invoiceId)).map
                (fun inv => Stats.receiptNet a inv.items)).getD 0 })
        else b := by
  intro b a
  cases hf : db.invoices.find? (fun i => i.id == a.invoiceId) with
  | none => simp [hf]
  | some inv =>
    by_cases he : inv.currency.isEmpty = true
    · simp [hf, he]
    · simp [hf, he]

/-- Invoiced value after the first loop. -/
theorem invoicedLoop_entry (db : Stats.Db) (year : Int) (m0 : Stats.MonthsMap)
    (hwfI : ∀ inv ∈ db.invoices, inv.createdAt.wf)
    (hlen : ∀ c, (Stats.monthsOf m0 c).length = 12)
    (c : String) (i : Nat) (hi : i < 12) :
    ((Stats.monthsOf (Stats.invoicedLoop db year m0) c).getD i default).invoiced
      = ((Stats.monthsOf m0 c).getD i default).invoiced
        + (((Stats.invoicesInYearOf db year).filter
            (fun a => a.currency == c && a.createdAt.month == i)).map
              (fun a => a.totalTTC)).sum := by
  have hmain := fold_entry_general
    (fun acc inv => Stats.addAt acc inv.currency inv.createdAt.month
      (fun m => { m with invoiced := m.invoiced + inv.totalTTC }))
    (fun _ => true) (fun inv => inv.currency) (fun inv => inv.createdAt.month)
    (fun inv m => { m with invoiced := m.invoiced + inv.totalTTC })
    (fun b a => by simp)
    (fun m => m.invoiced) (fun a b => b + a.totalTTC)
    (fun a s => rfl)
    (Stats.invoicesInYearOf db year) m0
    (fun a ha _ => (hwfI a (List.mem_of_mem_filter ha)).1)
    hlen c i hi
  rw [foldl_add_map] at hmain
  exact hmain

/-- The first loop leaves any field other than invoiced alone. -/
theorem invoicedLoop_frame {β : Type} (db : Stats.Db) (year : Int) (m0 : Stats.MonthsMap)
    (proj : Stats.MonthStat → β)
    (hproj : ∀ (q : ℚ) (s : Stats.MonthStat), proj { s with invoiced := q } = proj s)
    (hwfI : ∀ inv ∈ db.invoices, inv.createdAt.wf)
    (hlen : ∀ c, (Stats.monthsOf m0 c).length = 12)
    (c : String) (i : Nat) (hi : i < 12) :
    proj ((Stats.monthsOf (Stats.invoicedLoop db year m0) c).getD i default)
      = proj ((Stats.monthsOf m0 c).getD i default) := by
  have hmain := fold_entry_general
    (fun acc inv => Stats.addAt acc inv.currency inv.createdAt.month
      (fun m => { m with invoiced := m.invoiced + inv.totalTTC }))
    (fun _ => true) (fun inv => inv.currency) (fun inv => inv.createdAt.month)
    (fun inv m => { m with invoiced := m.invoiced + inv.totalTTC })
    (fun b a => by simp)
    proj (fun a b => b)
    (fun a s => hproj _ s)
    (Stats.invoicesInYearOf db year) m0
    (fun a ha _ => (hwfI a (List.mem_of_mem_filter ha)).1)
    hlen c i hi
  rw [foldl_keep] at hmain
  exact hmain

/-- The second loop leaves any field other than revenue alone. -/
theorem revenueLoop_frame {β : Type} (db : Stats.Db) (year : Int) (m0 : Stats.MonthsMap)
    (proj : Stats.MonthStat → β)
    (hproj : ∀ (q : ℚ) (s : Stats.MonthStat), proj { s with revenue := q } = proj s)
    (hwfR : ∀ r ∈ db.receipts, r.createdAt.wf)
    (hlen : ∀ c, (Stats.monthsOf m0 c).length = 12)
    (c : String) (i : Nat) (hi : i < 12) :
    proj ((Stats.monthsOf (Stats.revenueLoop db year m0) c).getD i default)
      = proj ((Stats.monthsOf m0 c).getD i default) := by
  have hmain := fold_entry_general
    (fun acc r =>
      match db.invoices.find? (fun i => i.id == r.invoiceId) with
      | none => acc
      | some inv =>
        if inv.currency.isEmpty then acc
        else Stats.addAt acc inv.currency r.createdAt.month
          (fun m => { m with revenue := m.revenue + Stats.receiptNet r inv.items }))
    (fun r => match db.invoices.find? (fun i => i.id == r.invoiceId) with
      | some inv => !inv.currency.isEmpty
      | none => false)
    (fun r => ((db.invoices.find? (fun i => i.id == r.invoiceId)).map
      (fun i => i.currency)).getD "")
    (fun r => r.createdAt.month)
    (fun r m => { m with revenue := m.revenue +
      ((db.invoices.find? (fun i => i.id == r.invoiceId)).map
        (fun inv => Stats.receiptNet r inv.items)).getD 0 })
    (revenueLoop_hstep db)
    proj (fun a b => b)
    (fun a s => hproj _ s)
    (Stats.receiptsInYearOf db year) m0
    (fun a ha _ => (hwfR a (List.mem_of_mem_filter ha)).1)
    hlen c i hi
  rw [foldl_keep] at hmain
  exact hmain

/-- Deposits value after the third loop. -/
theorem depositsLoop_entry (db : Stats.Db) (year : Int) (m0 : Stats.MonthsMap)
    (hwfR : ∀ r ∈ db.receipts, r.createdAt.wf)
    (hlen : ∀ c, (Stats.monthsOf m0 c).length = 12)
    (c : String) (i : Nat) (hi : i < 12) :
    ((Stats.monthsOf (Stats.depositsLoop db year m0) c).getD i default).deposits
      = ((Stats.monthsOf m0 c).getD i default).deposits
        + (((Stats.paidInvoicesOf db).filter (fun p =>
            (p.2.year == year) && (p.1.currency == c && p.2.month == i))).map
              (fun p => p.1.totalTTC)).sum := by
  have hmain := fold_entry_general
    (fun acc p =>
      if p.2.year == year then
        Stats.addAt acc p.1.currency p.2.month
          (fun m => { m with deposits := m.deposits + p.1.totalTTC })
      else acc)
    (fun p => p.2.year == year) (fun p => p.1.currency) (fun p => p.2.month)
    (fun p m => { m with deposits := m.deposits + p.1.totalTTC })
    (fun b a => rfl)
    (fun m => m.deposits) (fun a b => b + a.1.totalTTC)
    (fun a s => rfl)
    (Stats.paidInvoicesOf db) m0
    (fun p hp _ => (paidInvoicesOf_wf db hwfR p hp).1)
    hlen c i hi
  rw [foldl_add_map] at hmain
  exact hmain

/-- The third loop leaves any field other than deposits alone. -/
theorem depositsLoop_frame {β : Type} (db : Stats.Db) (year : Int) (m0 : Stats.MonthsMap)
    (proj : Stats.MonthStat → β)
    (hproj : ∀ (q : ℚ) (s : Stats.MonthStat), proj { s with deposits := q } = proj s)
    (hwfR : ∀ r ∈ db.receipts, r.createdAt.wf)
    (hlen : ∀ c, (Stats.monthsOf m0 c).length = 12)
    (c : String) (i : Nat) (hi : i < 12) :
    proj ((Stats.monthsOf (Stats.depositsLoop db year m0) c).getD i default)
      = proj ((Stats.monthsOf m0 c).getD i default) := by
  have hmain := fold_entry_general
    (fun acc p =>
      if p.2.year == year then
        Stats.addAt acc p.1.currency p.2.month
          (fun m => { m with deposits := m.deposits + p.1.totalTTC })
      else acc)
    (fun p => p.2.year == year) (fun p => p.1.currency) (fun p => p.2.month)
    (fun p m => { m with deposits := m.deposits + p.1.totalTTC })
    (fun b a => rfl)
    proj (fun a b => b)
    (fun a s => hproj _ s)
    (Stats.paidInvoicesOf db) m0
    (fun p hp _ => (paidInvoicesOf_wf db hwfR p hp).1)
    hlen c i hi
  rw [foldl_keep] at hmain
  exact hmain

theorem invoicedLoop_length (db : Stats.Db) (year : Int) (m0 : Stats.MonthsMap)
    (hlen : ∀ c, (Stats.monthsOf m0 c).length = 12) :
    ∀ c, (Stats.monthsOf (Stats.invoicedLoop db year m0) c).length = 12 := by
  have h0 :=
  fold_length_general
    (fun acc inv => Stats.addAt acc inv.currency inv.createdAt.month
      (fun m => { m with invoiced := m.invoiced + inv.totalTTC }))
    (fun _ => true) (fun inv => inv.currency) (fun inv => inv.createdAt.month)
    (fun inv m => { m with invoiced := m.invoiced + inv.totalTTC })
    (fun b a => by simp) (Stats.invoicesInYearOf db year) m0 hlen
  exact h0

theorem revenueLoop_length (db : Stats.Db) (year : Int) (m0 : Stats.MonthsMap)
    (hlen : ∀ c, (Stats.monthsOf m0 c).length = 12) :
    ∀ c, (Stats.monthsOf (Stats.revenueLoop db year m0) c).length = 12 :=
  fold_length_general _
    (fun r => match db.invoices.find? (fun i => i.id == r.invoiceId) with
      | some inv => !inv.currency.isEmpty
      | none => false)
    (fun r => ((db.invoices.find? (fun i => i.id == r.invoiceId)).map
      (fun i => i.currency)).getD "")
    (fun r => r.createdAt.month)
    (fun r m => { m with revenue := m.revenue +
      ((db.invoices.find? (fun i => i.id == r.invoiceId)).map
        (fun inv => Stats.receiptNet r inv.items)).getD 0 })
    (revenueLoop_hstep db) (Stats.receiptsInYearOf db year) m0 hlen

theorem depositsLoop_length (db : Stats.Db) (year : Int) (m0 : Stats.MonthsMap)
    (hlen : ∀ c, (Stats.monthsOf m0 c).length = 12) :
    ∀ c, (Stats.monthsOf (Stats.depositsLoop db year m0) c).length = 12 := by
  have h0 :=
  fold_length_general
    (fun acc p =>
      if p.2.year == year then
        Stats.addAt acc p.1.currency p.2.month
          (fun m => { m with deposits := m.deposits + p.1.totalTTC })
      else acc)
    (fun p => p.2.year == year) (fun p => p.1.currency) (fun p => p.2.month)
    (fun p m => { m with deposits := m.deposits + p.1.totalTTC })
    (fun b a => rfl) (Stats.paidInvoicesOf db) m0 hlen
  exact h0

theorem invoicedLoop_nodup (db : Stats.Db) (year : Int) (m0 : Stats.MonthsMap)
    (hnd : Stats.KeysNodup m0) : Stats.KeysNodup (Stats.invoicedLoop db year m0) := by
  have h0 :=
  fold_nodup_general
    (fun acc inv => Stats.addAt acc inv.currency inv.createdAt.month
      (fun m => { m with invoiced := m.invoiced + inv.totalTTC }))
    (fun _ => true) (fun inv => inv.currency) (fun inv => inv.createdAt.month)
    (fun inv m => { m with invoiced := m.invoiced + inv.totalTTC })
    (fun b a => by simp) (Stats.invoicesInYearOf db year) m0 hnd
  exact h0

theorem revenueLoop_nodup (db : Stats.Db) (year : Int) (m0 : Stats.MonthsMap)
    (hnd : Stats.KeysNodup m0) : Stats.KeysNodup (Stats.revenueLoop db year m0) :=
  fold_nodup_general _
    (fun r => match db.invoices.find? (fun i => i.id == r.invoiceId) with
      | some inv => !inv.currency.isEmpty
      | none => false)
    (fun r => ((db.invoices.find? (fun i => i.id == r.invoiceId)).map
      (fun i => i.currency)).getD "")
    (fun r => r.createdAt.month)
    (fun r m => { m with revenue := m.revenue +
      ((db.invoices.find? (fun i => i.id == r.invoiceId)).map
        (fun inv => Stats.receiptNet r inv.items)).getD 0 })
    (revenueLoop_hstep db) (Stats.receiptsInYearOf db year) m0 hnd

theorem depositsLoop_nodup (db : Stats.Db) (year : Int) (m0 : Stats.MonthsMap)
    (hnd : Stats.KeysNodup m0) : Stats.KeysNodup (Stats.depositsLoop db year m0) := by
  have h0 :=
  fold_nodup_general
    (fun acc p =>
      if p.2.year == year then
        Stats.addAt acc p.1.currency p.2.month
          (fun m => { m with deposits := m.deposits + p.1.totalTTC })
      else acc)
    (fun p => p.2.year == year) (fun p => p.1.currency) (fun p => p.2.month)
    (fun p m => { m with deposits := m.deposits + p.1.totalTTC })
    (fun b a => rfl) (Stats.paidInvoicesOf db) m0 hnd
  exact h0

theorem invoicedLoop_keys (db : Stats.Db) (year : Int) (m0 : Stats.MonthsMap)
    (c : String)
    (h : c ∈ m0.map Prod.fst ∨ ∃ a ∈ Stats.invoicesInYearOf db year, a.currency = c) :
    c ∈ (Stats.invoicedLoop db year m0).map Prod.fst :=
  fold_keys_general
    (fun acc inv => Stats.addAt acc inv.currency inv.createdAt.month
      (fun m => { m with invoiced := m.invoiced + inv.totalTTC }))
    (fun _ => true) (fun inv => inv.currency) (fun inv => inv.createdAt.month)
    (fun inv m => { m with invoiced := m.invoiced + inv.totalTTC })
    (fun b a => by simp) (Stats.invoicesInYearOf db year) m0 c
    (h.elim Or.inl (fun ⟨a, ha, hk⟩ => Or.inr ⟨a, ha, rfl, hk⟩))

theorem revenueLoop_keys (db : Stats.Db) (year : Int) (m0 : Stats.MonthsMap)
    (c : String) (h : c ∈ m0.map Prod.fst) :
    c ∈ (Stats.revenueLoop db year m0).map Prod.fst :=
  fold_keys_general _
    (fun r => match db.invoices.find? (fun i => i.id == r.invoiceId) with
      | some inv => !inv.currency.isEmpty
      | none => false)
    (fun r => ((db.invoices.find? (fun i => i.id == r.invoiceId)).map
      (fun i => i.currency)).getD "")
    (fun r => r.createdAt.month)
    (fun r m => { m with revenue := m.revenue +
      ((db.invoices.find? (fun i => i.id == r.invoiceId)).map
        (fun inv => Stats.receiptNet r inv.items)).getD 0 })
    (revenueLoop_hstep db) (Stats.receiptsInYearOf db year) m0 c (Or.inl h)

theorem depositsLoop_keys (db : Stats.Db) (year : Int) (m0 : Stats.MonthsMap)
    (c : String) (h : c ∈ m0.map Prod.fst) :
    c ∈ (Stats.depositsLoop db year m0).map Prod.fst := by
  have h0 :=
  fold_keys_general
    (fun acc p =>
      if p.2.year == year then
        Stats.addAt acc p.1.currency p.2.month
          (fun m => { m with deposits := m.deposits + p.1.totalTTC })
      else acc)
    (fun p => p.2.year == year) (fun p => p.1.currency) (fun p => p.2.month)
    (fun p m => { m with deposits := m.deposits + p.1.totalTTC })
    (fun b a => rfl) (Stats.paidInvoicesOf db) m0 c (Or.inl h)
  exact h0

/-- C4 counterexample: with one active invoice of totalTTC 12.1121 created in
January of the requested year, the returned invoiced value of that month is
the rounded 12.11, not the sum 12.1121 the claim states. -/
theorem c4_monthly_stats_counterexample :
    (Stats.getMonthlyStats
        { companies := [{ id := "co" }],
          invoices := [{ id := "i1", currency := "USD", totalTTC := 121121/10000,
                         isActive := true,
                         createdAt := { year := 2024, month := 0, ms := 0 },
                         items := [] }],
          receipts := [] } 2024).map
        (fun stats => stats.map (fun kv => (kv.1, (kv.2.getD 0 default).invoiced)))
      = .ok [("USD", (1211 : ℚ)/100)] ∧
    ((({ companies := [{ id := "co" }],
         invoices := [{ id := "i1", currency := "USD", totalTTC := 121121/10000,
                        isActive := true,
                        createdAt := { year := 2024, month := 0, ms := 0 },
                        items := [] }],
         receipts := [] } : Stats.Db).invoices.filter (fun inv =>
        inv.isActive && inv.currency == "USD" && inv.createdAt.year == 2024
          && inv.createdAt.month == 0)).map (fun inv => inv.totalTTC)).sum
      = (121121 : ℚ)/10000 ∧
    ((1211 : ℚ)/100) ≠ (121121 : ℚ)/10000 := by
  refine ⟨?_, ?_, ?_⟩
  · norm_num [Stats.getMonthlyStats, Stats.invoicedLoop, Stats.invoicesInYearOf,
      Stats.receiptsInYearOf, Stats.revenueLoop, Stats.depositsLoop,
      Stats.paidInvoicesOf, Stats.invoicesWithReceiptsOf, Stats.addAt,
      Stats.ensureCurrency, Stats.zeroMonths, Stats.Date.leb, Stats.startOfYear,
      Stats.endOfYear, Stats.monthsOf, Stats.roundMonth, Stats.jsToFixed2,
      Stats.roundHalfUp, Stats.decEndMs, Except.map, Stats.sortedReceiptsOf,
      Stats.firstPaidDate, Stats.firstPaidDateAux, List.filter, List.foldl,
      List.getD, List.getElem?_range, Function.comp]
  · norm_num [List.filter]
  · norm_num

/-- C4 (amended): per currency, each month of getMonthlyStats(year) holds as
invoiced the sum of totalTTC over active invoices created in that month of
the year, and as deposits the sum of totalTTC over active invoices whose
cumulative receipts (ascending createdAt) first reach totalTTC at a receipt
dated in that month of the year - each value rounded to two decimals by
toFixed(2); every currency invoiced in the year appears in the result. -/
theorem c4_monthly_stats_amended (db : Stats.Db) (year : Int) (stats : Stats.MonthsMap)
    (hwfI : ∀ inv ∈ db.invoices, inv.createdAt.wf)
    (hwfR : ∀ r ∈ db.receipts, r.createdAt.wf)
    (h : Stats.getMonthlyStats db year = .ok stats) :
    (∀ c months, (c, months) ∈ stats →
      months.length = 12 ∧
      ∀ i, i < 12 →
        ∃ entry, months[i]? = some entry ∧ entry.month = i + 1 ∧
          entry.invoiced = Stats.jsToFixed2 (((db.invoices.filter (fun inv =>
              inv.isActive && inv.currency == c && inv.createdAt.year == year
                && inv.createdAt.month == i)).map (fun inv => inv.totalTTC)).sum) ∧
          entry.deposits = Stats.jsToFixed2 (((db.invoices.filter (fun inv =>
              inv.isActive && inv.currency == c &&
                (Stats.firstPaidDate inv.totalTTC (Stats.sortedReceiptsOf db inv.id)).any
                  (fun d => d.year == year && d.month == i))).map
                (fun inv => inv.totalTTC)).sum)) ∧
    (∀ inv ∈ db.invoices, inv.isActive = true → inv.createdAt.year = year →
      inv.currency ∈ stats.map Prod.fst) := by
  cases hco : db.companies.head? with
  | none => simp [Stats.getMonthlyStats, hco] at h
  | some company =>
    simp only [Stats.getMonthlyStats, hco] at h
    injection h with h
    subst h
    have hlen0 : ∀ c, (Stats.monthsOf ([] : Stats.MonthsMap) c).length = 12 := by
      intro c
      have hz : Stats.monthsOf ([] : Stats.MonthsMap) c = Stats.zeroMonths := rfl
      rw [hz]
      exact zeroMonths_length
    have hlen1 := invoicedLoop_length db year [] hlen0
    have hlen2 := revenueLoop_length db year (Stats.invoicedLoop db year []) hlen1
    have hlen3 := depositsLoop_length db year
      (Stats.revenueLoop db year (Stats.invoicedLoop db year [])) hlen2
    have hnd0 : Stats.KeysNodup ([] : Stats.MonthsMap) := by
      simp [Stats.KeysNodup]
    have hnd3 : Stats.KeysNodup (Stats.depositsLoop db year
        (Stats.revenueLoop db year (Stats.invoicedLoop db year []))) :=
      depositsLoop_nodup db year _
        (revenueLoop_nodup db year _ (invoicedLoop_nodup db year _ hnd0))
    constructor
    · intro c months hmem
      have hmonths := mem_map_entry _ hnd3 c months Stats.roundMonth hmem
      subst hmonths
      refine ⟨by rw [List.length_map]; exact hlen3 c, ?_⟩
      intro i hi
      have hilen : i < (Stats.monthsOf (Stats.depositsLoop db year
          (Stats.revenueLoop db year (Stats.invoicedLoop db year []))) c).length := by
        rw [hlen3 c]
        exact hi
      refine ⟨Stats.roundMonth ((Stats.monthsOf (Stats.depositsLoop db year
        (Stats.revenueLoop db year (Stats.invoicedLoop db year []))) c).getD i default),
        ?_, ?_, ?_, ?_⟩
      · rw [List.getElem?_map, List.getElem?_eq_getElem hilen]
        rw [List.getD_eq_getElem?_getD, List.getElem?_eq_getElem hilen]
        rfl
      · have hm3 := depositsLoop_frame db year
          (Stats.revenueLoop db year (Stats.invoicedLoop db year []))
          (fun m => m.month) (fun q s => rfl) hwfR hlen2 c i hi
        have hm2 := revenueLoop_frame db year (Stats.invoicedLoop db year [])
          (fun m => m.month) (fun q s => rfl) hwfR hlen1 c i hi
        have hm1 := invoicedLoop_frame db year []
          (fun m => m.month) (fun q s => rfl) hwfI hlen0 c i hi
        have hbase : ((Stats.monthsOf ([] : Stats.MonthsMap) c).getD i default).month
            = i + 1 := by
          have hz : Stats.monthsOf ([] : Stats.MonthsMap) c = Stats.zeroMonths := rfl
          rw [hz, zeroMonths_getD i hi]
        simp only [] at hm3 hm2 hm1
        show ((Stats.monthsOf (Stats.depositsLoop db year
          (Stats.revenueLoop db year (Stats.invoicedLoop db year []))) c).getD i default).month
          = i + 1
        rw [hm3, hm2, hm1, hbase]
      · have hv3 := depositsLoop_frame db year
          (Stats.revenueLoop db year (Stats.invoicedLoop db year []))
          (fun m => m.invoiced) (fun q s => rfl) hwfR hlen2 c i hi
        have hv2 := revenueLoop_frame db year (Stats.invoicedLoop db year [])
          (fun m => m.invoiced) (fun q s => rfl) hwfR hlen1 c i hi
        have hv1 := invoicedLoop_entry db year [] hwfI hlen0 c i hi
        have hbase : ((Stats.monthsOf ([] : Stats.MonthsMap) c).getD i default).invoiced
            = 0 := by
          have hz : Stats.monthsOf ([] : Stats.MonthsMap) c = Stats.zeroMonths := rfl
          rw [hz, zeroMonths_getD i hi]
        have hfconv : (Stats.invoicesInYearOf db year).filter
            (fun a => a.currency == c && a.createdAt.month == i)
            = db.invoices.filter (fun inv =>
                inv.isActive && inv.currency == c && inv.createdAt.year == year
                  && inv.createdAt.month == i) := by
          unfold Stats.invoicesInYearOf
          rw [List.filter_filter]
          apply List.filter_congr
          intro x hx
          have hd := date_range_eq_year x.createdAt (hwfI x hx) year
          cases h1 : x.isActive <;> cases h2 : (x.currency == c) <;>
            cases h3 : Stats.Date.leb (Stats.startOfYear year) x.createdAt <;>
            cases h4 : Stats.Date.leb x.createdAt (Stats.endOfYear year) <;>
            cases h5 : (x.createdAt.month == i) <;>
            rw [h3, h4] at hd <;> simp_all
        have hval : ((Stats.monthsOf (Stats.depositsLoop db year
            (Stats.revenueLoop db year (Stats.invoicedLoop db year []))) c).getD i
              default).invoiced
            = ((db.invoices.filter (fun inv =>
                inv.isActive && inv.currency == c && inv.createdAt.year == year
                  && inv.createdAt.month == i)).map (fun inv => inv.totalTTC)).sum := by
          simp only [] at hv3 hv2
          rw [hv3, hv2, hv1, hbase, zero_add, hfconv]
        show Stats.jsToFixed2 ((Stats.monthsOf (Stats.depositsLoop db year
          (Stats.revenueLoop db year (Stats.invoicedLoop db year []))) c).getD i
            default).invoiced = _
        rw [hval]
      · have hd2 := revenueLoop_frame db year (Stats.invoicedLoop db year [])
          (fun m => m.deposits) (fun q s => rfl) hwfR hlen1 c i hi
        have hd1 := invoicedLoop_frame db year []
          (fun m => m.deposits) (fun q s => rfl) hwfI hlen0 c i hi
        have hd3 := depositsLoop_entry db year
          (Stats.revenueLoop db year (Stats.invoicedLoop db year [])) hwfR hlen2 c i hi
        have hbase : ((Stats.monthsOf ([] : Stats.MonthsMap) c).getD i default).deposits
            = 0 := by
          have hz : Stats.monthsOf ([] : Stats.MonthsMap) c = Stats.zeroMonths := rfl
          rw [hz, zeroMonths_getD i hi]
        have hpmid : (((Stats.paidInvoicesOf db).filter (fun p =>
            (p.2.year == year) && (p.1.currency == c && p.2.month == i))).map
              (fun p => p.1.totalTTC)).sum
            = (((Stats.invoicesWithReceiptsOf db).filter (fun x =>
                (Stats.firstPaidDate x.totalTTC (Stats.sortedReceiptsOf db x.id)).any
                  (fun d => (d.year == year) && (x.currency == c && d.month == i)))).map
                    (fun x => x.totalTTC)).sum :=
          paid_sum_filterMap
            (fun x => Stats.firstPaidDate x.totalTTC (Stats.sortedReceiptsOf db x.id))
            (fun x => x.totalTTC)
            (fun x d => (d.year == year) && (x.currency == c && d.month == i))
            (Stats.invoicesWithReceiptsOf db)
        have hpconv : (((Stats.invoicesWithReceiptsOf db).filter (fun x =>
              (Stats.firstPaidDate x.totalTTC (Stats.sortedReceiptsOf db x.id)).any
                (fun d => (d.year == year) && (x.currency == c && d.month == i)))).map
                  (fun x => x.totalTTC)).sum
            = ((db.invoices.filter (fun inv =>
                inv.isActive && inv.currency == c &&
                  (Stats.firstPaidDate inv.totalTTC (Stats.sortedReceiptsOf db inv.id)).any
                    (fun d => d.year == year && d.month == i))).map
                  (fun inv => inv.totalTTC)).sum := by
          unfold Stats.invoicesWithReceiptsOf
          rw [List.filter_filter]
          apply congrArg
          apply congrArg
          apply List.filter_congr
          intro x _hx
          cases hrec : db.receipts.any (fun r => r.invoiceId == x.id) with
          | false =>
            have hnil := sortedReceiptsOf_nil db x.id hrec
            simp [hnil, Stats.firstPaidDate, Stats.firstPaidDateAux, Option.any, hrec]
          | true =>
            cases hcur : (x.currency == c) with
            | false =>
              cases hfpd : Stats.firstPaidDate x.totalTTC (Stats.sortedReceiptsOf db x.id) with
              | none => simp [hrec, hcur, hfpd, Option.any]
              | some d => simp [hrec, hcur, hfpd, Option.any]
            | true =>
              cases hfpd : Stats.firstPaidDate x.totalTTC (Stats.sortedReceiptsOf db x.id) with
              | none => simp [hrec, hcur, hfpd, Option.any]
              | some d =>
                cases hya : (d.year == year) <;> cases hmo : (d.month == i) <;>
                  cases hact : x.isActive <;>
                  simp [hrec, hcur, hfpd, Option.any, hya, hmo, hact]
        have hval : ((Stats.monthsOf (Stats.depositsLoop db year
            (Stats.revenueLoop db year (Stats.invoicedLoop db year []))) c).getD i
              default).deposits
            = ((db.invoices.filter (fun inv =>
                inv.isActive && inv.currency == c &&
                  (Stats.firstPaidDate inv.totalTTC (Stats.sortedReceiptsOf db inv.id)).any
                    (fun d => d.year == year && d.month == i))).map
                  (fun inv => inv.totalTTC)).sum := by
          simp only [] at hd2 hd1
          rw [hd3, hd2, hd1, hbase, zero_add, hpmid, hpconv]
        show Stats.jsToFixed2 ((Stats.monthsOf (Stats.depositsLoop db year
          (Stats.revenueLoop db year (Stats.invoicedLoop db year []))) c).getD i
            default).deposits = _
        rw [hval]
    · intro inv hmem hact hyear
      have hkeymap : ((Stats.depositsLoop db year (Stats.revenueLoop db year
            (Stats.invoicedLoop db year []))).map
              (fun kv => (kv.1, kv.2.map Stats.roundMonth))).map Prod.fst
          = (Stats.depositsLoop db year (Stats.revenueLoop db year
              (Stats.invoicedLoop db year []))).map Prod.fst := by
        rw [List.map_map]
        congr 1
      rw [hkeymap]
      apply depositsLoop_keys
      apply revenueLoop_keys
      apply invoicedLoop_keys
      right
      refine ⟨inv, ?_, rfl⟩
      unfold Stats.invoicesInYearOf
      rw [List.mem_filter]
      refine ⟨hmem, ?_⟩
      have hd := date_range_eq_year inv.createdAt (hwfI inv hmem) year
      have hyr : (inv.createdAt.year == year) = true := by simpa using hyear
      rw [hyr] at hd
      obtain ⟨hl1, hl2⟩ := (Bool.and_eq_true _ _).mp hd
      rw [hact, hl1, hl2]
      rfl

theorem c4_monthly_stats_amended_witness :
    (∀ inv ∈ (Stats.Db.mk [Stats.SCompany.mk "co"]
        [Stats.SInvoice.mk "i1" "USD" 10 true (Stats.Date.mk 2024 0 0) []] []).invoices,
      inv.createdAt.wf) ∧
    (∀ r ∈ (Stats.Db.mk [Stats.SCompany.mk "co"]
        [Stats.SInvoice.mk "i1" "USD" 10 true (Stats.Date.mk 2024 0 0) []] []).receipts,
      r.createdAt.wf) ∧
    Stats.getMonthlyStats
      (Stats.Db.mk [Stats.SCompany.mk "co"]
        [Stats.SInvoice.mk "i1" "USD" 10 true (Stats.Date.mk 2024 0 0) []] []) 2024
      = .ok [("USD",
          [⟨1, 10, 0, 0⟩, ⟨2, 0, 0, 0⟩, ⟨3, 0, 0, 0⟩, ⟨4, 0, 0, 0⟩,
           ⟨5, 0, 0, 0⟩, ⟨6, 0, 0, 0⟩, ⟨7, 0, 0, 0⟩, ⟨8, 0, 0, 0⟩,
           ⟨9, 0, 0, 0⟩, ⟨10, 0, 0, 0⟩, ⟨11, 0, 0, 0⟩, ⟨12, 0, 0, 0⟩])] ∧
    "USD" ∈ ([("USD",
          [(⟨1, 10, 0, 0⟩ : Stats.MonthStat), ⟨2, 0, 0, 0⟩, ⟨3, 0, 0, 0⟩, ⟨4, 0, 0, 0⟩,
           ⟨5, 0, 0, 0⟩, ⟨6, 0, 0, 0⟩, ⟨7, 0, 0, 0⟩, ⟨8, 0, 0, 0⟩,
           ⟨9, 0, 0, 0⟩, ⟨10, 0, 0, 0⟩, ⟨11, 0, 0, 0⟩,
           ⟨12, 0, 0, 0⟩])] : Stats.MonthsMap).map Prod.fst := by
  have hwfI : ∀ inv ∈ (Stats.Db.mk [Stats.SCompany.mk "co"]
      [Stats.SInvoice.mk "i1" "USD" 10 true (Stats.Date.mk 2024 0 0) []] []).invoices,
      inv.createdAt.wf := by
    intro inv h
    simp only [List.mem_singleton] at h
    subst h
    exact ⟨by norm_num, Nat.zero_le _⟩
  have hwfR : ∀ r ∈ (Stats.Db.mk [Stats.SCompany.mk "co"]
      [Stats.SInvoice.mk "i1" "USD" 10 true (Stats.Date.mk 2024 0 0) []] []).receipts,
      r.createdAt.wf := by
    intro r h
    simp at h
  have h : Stats.getMonthlyStats
      (Stats.Db.mk [Stats.SCompany.mk "co"]
        [Stats.SInvoice.mk "i1" "USD" 10 true (Stats.Date.mk 2024 0 0) []] []) 2024
      = .ok [("USD",
          [⟨1, 10, 0, 0⟩, ⟨2, 0, 0, 0⟩, ⟨3, 0, 0, 0⟩, ⟨4, 0, 0, 0⟩,
           ⟨5, 0, 0, 0⟩, ⟨6, 0, 0, 0⟩, ⟨7, 0, 0, 0⟩, ⟨8, 0, 0, 0⟩,
           ⟨9, 0, 0, 0⟩, ⟨10, 0, 0, 0⟩, ⟨11, 0, 0, 0⟩, ⟨12, 0, 0, 0⟩])] := by
    norm_num [Stats.getMonthlyStats, Stats.invoicedLoop, Stats.invoicesInYearOf,
      Stats.receiptsInYearOf, Stats.revenueLoop, Stats.depositsLoop,
      Stats.paidInvoicesOf, Stats.invoicesWithReceiptsOf, Stats.addAt,
      Stats.ensureCurrency, Stats.zeroMonths, Stats.Date.leb, Stats.startOfYear,
      Stats.endOfYear, Stats.monthsOf, Stats.roundMonth, Stats.jsToFixed2,
      Stats.roundHalfUp, Stats.decEndMs, Except.map, Stats.sortedReceiptsOf,
      Stats.firstPaidDate, Stats.firstPaidDateAux, List.filter, List.foldl,
      List.getD, List.getElem?_range, Function.comp, List.range_succ,
      List.mapIdx_cons]
  refine ⟨hwfI, hwfR, h, ?_⟩
  exact (c4_monthly_stats_amended _ 2024 _ hwfI hwfR h).2
    (Stats.SInvoice.mk "i1" "USD" 10 true (Stats.Date.mk 2024 0 0) [])
    (by simp) rfl rfl
